import Mathlib

/-!
Verification of the Task & Session Lifecycle Engine of the local-ai-stack
repository against its design specification.

The embedding below follows the sources:
* `Local_AI_Automation/data/backlog/schema.sql` — the `backlog_items`,
  `backlog_events` and `clarifications` tables, the `v_active_by_priority`
  view and the four triggers (`trg_backlog_updated`, `trg_log_status_change`,
  `trg_log_priority_change`, `trg_set_completed_at`).  SQLite rows become
  Lean structures, `DATETIME` values become abstract `Nat` instants supplied
  by the caller, an `UPDATE ... WHERE id = ?` becomes a map over the row list,
  and an `AFTER UPDATE` trigger becomes a function applied to the affected row
  (SQLite's default `recursive_triggers = OFF` means the triggers' own inner
  `UPDATE` statements fire no further triggers, and the inner updates mention
  neither `status` nor `priority`, so no `UPDATE OF` trigger fires either).
* `Local_AI_Automation/static/js/core/websocket-manager.js` — the
  `WebSocketManager` class with its `messageQueue`, `send` and `flushQueue`.

The FastAPI backend of the dashboard (the `/backlog`, `/clarifications` and
`/kanban/sessions` handlers) is not part of the sources; where a claim is
decided by that missing code, the corresponding definition is modelled from
the spec and marked `Modelled from the spec:` in its doc comment.
-/

namespace LocalAIStack

/-- The `status` column of `backlog_items`:
`CHECK (status IN ('open', 'needs_clarification', 'in_progress', 'blocked',
'done', 'cancelled'))`. -/
inductive Status
  | open_
  | needs_clarification
  | in_progress
  | blocked
  | done
  | cancelled
deriving DecidableEq, Repr

/-- The `priority` column: `CHECK (priority IN ('P0', 'P1', 'P2', 'P3'))`. -/
inductive Priority
  | P0
  | P1
  | P2
  | P3
deriving DecidableEq, Repr

/-- The `item_type` column: `CHECK (item_type IN ('personal', 'work', 'mixed'))`. -/
inductive ItemType
  | personal
  | work
  | mixed
deriving DecidableEq, Repr

/-- The `estimated_effort` column: `CHECK (estimated_effort IN ('S', 'M', 'L', NULL))`. -/
inductive Effort
  | S
  | M
  | L
deriving DecidableEq, Repr

/-- One row of the `backlog_items` table.  Nullable columns are `Option`s;
`DATETIME` columns are abstract instants (`Nat`); the `REAL` column
`llm_confidence` is modelled as a rational number. -/
structure ItemRow where
  id : Nat
  external_id : String
  title : String
  description : Option String := none
  category : String := "Personal"
  secondary_tags : Option String := none
  priority : Priority := Priority.P2
  item_type : ItemType := ItemType.personal
  status : Status := Status.open_
  next_action : Option String := none
  estimated_effort : Option Effort := none
  dependencies : Option String := none
  source_channel : Option String := none
  source_message_ts : Option String := none
  source_user : Option String := none
  created_at : Nat := 0
  updated_at : Nat := 0
  completed_at : Option Nat := none
  llm_confidence : Option Rat := none
  raw_input : Option String := none
deriving DecidableEq, Repr

/-- The JSON payload (`event_data`) of a `backlog_events` row, as produced by
`json_object(...)` in the two logging triggers, plus the payloads the
clarification coordinator writes. -/
inductive EventData
  | statusChange (old_status new_status : Status)
  | priorityChange (old_priority new_priority : Priority)
  | clarificationAsked (question : String)
  | clarificationAnswered (question answer : String)
deriving DecidableEq, Repr

/-- One row of the `backlog_events` table. -/
structure EventRow where
  id : Nat
  item_id : Nat
  external_id : String
  event_type : String
  event_data : EventData
  actor_type : String
  created_at : Nat
deriving DecidableEq, Repr

/-- The materialized backlog database: the `backlog_items` table, the
append-only `backlog_events` table, and the `AUTOINCREMENT` counter for
event ids. -/
structure Db where
  backlog_items : List ItemRow
  backlog_events : List EventRow
  next_event_id : Nat
deriving DecidableEq, Repr

/-- The SQL `UPDATE backlog_items SET ... WHERE id = rowId`: apply `f` to every row
whose `id` matches (`id` is the `INTEGER PRIMARY KEY`). -/
def updateRow (rowId : Nat) (f : ItemRow → ItemRow) (items : List ItemRow) : List ItemRow :=
  items.map (fun r => if r.id == rowId then f r else r)

/-- The SQL `SELECT * FROM backlog_items WHERE id = rowId` (first match). -/
def findRow (items : List ItemRow) (rowId : Nat) : Option ItemRow :=
  items.find? (fun r => r.id == rowId)

/-- Trigger `trg_backlog_updated` (schema.sql:176-182), row-level effect:
`UPDATE backlog_items SET updated_at = CURRENT_TIMESTAMP WHERE id = NEW.id`. -/
def trg_backlog_updated (now : Nat) (r : ItemRow) : ItemRow :=
  { r with updated_at := now }

/-- Trigger `trg_set_completed_at` (schema.sql:215-222), row-level effect:
`WHEN NEW.status = 'done' AND OLD.status != 'done'` set
`completed_at = CURRENT_TIMESTAMP`. -/
def trg_set_completed_at (now : Nat) (oldStatus : Status) (r : ItemRow) : ItemRow :=
  if r.status = Status.done ∧ oldStatus ≠ Status.done then
    { r with completed_at := some now }
  else r

/-- Trigger `trg_log_status_change` (schema.sql:185-197):
`WHEN OLD.status != NEW.status` insert one `status_changed` event carrying
`json_object('old_status', OLD.status, 'new_status', NEW.status)`. -/
def trg_log_status_change (now eid : Nat) (oldRow newRow : ItemRow) : List EventRow :=
  if oldRow.status ≠ newRow.status then
    [{ id := eid, item_id := newRow.id, external_id := newRow.external_id,
       event_type := "status_changed",
       event_data := EventData.statusChange oldRow.status newRow.status,
       actor_type := "system", created_at := now }]
  else []

/-- Trigger `trg_log_priority_change` (schema.sql:200-212):
`WHEN OLD.priority != NEW.priority` insert one `priority_changed` event. -/
def trg_log_priority_change (now eid : Nat) (oldRow newRow : ItemRow) : List EventRow :=
  if oldRow.priority ≠ newRow.priority then
    [{ id := eid, item_id := newRow.id, external_id := newRow.external_id,
       event_type := "priority_changed",
       event_data := EventData.priorityChange oldRow.priority newRow.priority,
       actor_type := "system", created_at := now }]
  else []

/-- The SQL statements that mutate `backlog_items`: an `INSERT`, or a
single-column `UPDATE ... WHERE id = ?` of `status`, `priority`, `title` or
`description`. -/
inductive Mutation
  | insert (row : ItemRow)
  | setStatus (rowId : Nat) (s : Status)
  | setPriority (rowId : Nat) (p : Priority)
  | setTitle (rowId : Nat) (t : String)
  | setDescription (rowId : Nat) (d : Option String)
deriving DecidableEq, Repr

/-- One SQL statement against the backlog database, with its triggers.
An `INSERT` fires no trigger (all four triggers are `AFTER UPDATE`) and is
rejected when it would violate the `PRIMARY KEY` or the `UNIQUE external_id`
constraint.  An `UPDATE` matching no row does nothing.  An `UPDATE` fires
`trg_backlog_updated` always, and the status/priority triggers only when the
updated column is in its `UPDATE OF` list. -/
def step (now : Nat) (db : Db) (m : Mutation) : Db :=
  match m with
  | Mutation.insert row =>
      if db.backlog_items.any (fun r => r.id == row.id || r.external_id == row.external_id) then
        db
      else
        { db with backlog_items := db.backlog_items ++ [row] }
  | Mutation.setStatus rowId s =>
      match findRow db.backlog_items rowId with
      | none => db
      | some oldRow =>
          let newRow : ItemRow := { oldRow with status := s }
          let evs := trg_log_status_change now db.next_event_id oldRow newRow
          { backlog_items :=
              updateRow rowId
                (fun r => trg_set_completed_at now r.status
                  (trg_backlog_updated now { r with status := s }))
                db.backlog_items,
            backlog_events := db.backlog_events ++ evs,
            next_event_id := db.next_event_id + evs.length }
  | Mutation.setPriority rowId p =>
      match findRow db.backlog_items rowId with
      | none => db
      | some oldRow =>
          let newRow : ItemRow := { oldRow with priority := p }
          let evs := trg_log_priority_change now db.next_event_id oldRow newRow
          { backlog_items :=
              updateRow rowId
                (fun r => trg_backlog_updated now { r with priority := p })
                db.backlog_items,
            backlog_events := db.backlog_events ++ evs,
            next_event_id := db.next_event_id + evs.length }
  | Mutation.setTitle rowId t =>
      match findRow db.backlog_items rowId with
      | none => db
      | some _ =>
          let items :=
            updateRow rowId (fun r => trg_backlog_updated now { r with title := t })
              db.backlog_items
          { db with backlog_items := items }
  | Mutation.setDescription rowId d =>
      match findRow db.backlog_items rowId with
      | none => db
      | some _ =>
          let items :=
            updateRow rowId (fun r => trg_backlog_updated now { r with description := d })
              db.backlog_items
          { db with backlog_items := items }

/-- A sequence of timestamped SQL mutations, applied in order. -/
def run (db : Db) (ops : List (Nat × Mutation)) : Db :=
  ops.foldl (fun d nm => step nm.1 d nm.2) db

/-- The SQL `SELECT * FROM backlog_events WHERE item_id = ?` in insertion
(= `id`) order: the stored Event sequence of one item. -/
def eventsFor (db : Db) (itemId : Nat) : List EventRow :=
  db.backlog_events.filter (fun e => e.item_id == itemId)

/-- The SQL `SELECT * FROM backlog_events WHERE event_type = ?` in insertion order. -/
def eventsOfType (db : Db) (t : String) : List EventRow :=
  db.backlog_events.filter (fun e => e.event_type == t)

/-- The `status_changed → done` events of one item. -/
def doneStatusEvents (db : Db) (itemId : Nat) : List EventRow :=
  db.backlog_events.filter (fun e =>
    e.item_id == itemId && e.event_type == "status_changed" &&
      (match e.event_data with
       | EventData.statusChange _ ns => ns == Status.done
       | _ => false))

/-- Modelled from the spec: applying one stored Event to a materialized row
during a rebuild ("materialized repository is rebuildable by replaying Events
in sequence order").  No replay routine exists in the sources; per the
payloads the triggers actually write, a `status_changed` event carries the
new status and a `priority_changed` event the new priority, and no other
trigger-written event kind exists. -/
def applyEvent (r : ItemRow) (e : EventRow) : ItemRow :=
  match e.event_data with
  | EventData.statusChange _ ns => { r with status := ns }
  | EventData.priorityChange _ np => { r with priority := np }
  | _ => r

/-- Replay a stored Event sequence over a materialized row. -/
def replay (r : ItemRow) (events : List EventRow) : ItemRow :=
  events.foldl applyEvent r

/-- Modelled from the spec: a cold-start rebuild of the whole materialized
table from the Event Store alone ("must reproduce identical materialized
state from a cold start").  The triggers write no creation events, so each
event can only be applied to the rows its `item_id` already matches — an SQL
`UPDATE` of an absent row affects nothing. -/
def replayFromEmpty (events : List EventRow) : List ItemRow :=
  events.foldl (fun items e => updateRow e.item_id (fun r => applyEvent r e) items) []

/-- The error taxonomy of the spec (§7). -/
inductive ApiError
  | NotFound
  | Conflict
  | InvalidTransition
  | ValidationError
deriving DecidableEq, Repr

/-- Modelled from the spec: the item transition table of §4.1 as restated by
the claims — `open → needs_clarification → in_progress → blocked → done`,
`blocked ⇄ in_progress`, `cancelled` reachable from any non-terminal state,
and `cancelled → open` as the sole transition out of a terminal state.  The
schema's `CHECK` constraint only fixes the status domain; the handler that
enforces transitions is not in the sources. -/
def allowedTransition : Status → Status → Bool
  | Status.open_, Status.needs_clarification => true
  | Status.open_, Status.cancelled => true
  | Status.needs_clarification, Status.in_progress => true
  | Status.needs_clarification, Status.cancelled => true
  | Status.in_progress, Status.blocked => true
  | Status.in_progress, Status.cancelled => true
  | Status.blocked, Status.done => true
  | Status.blocked, Status.in_progress => true
  | Status.blocked, Status.cancelled => true
  | Status.cancelled, Status.open_ => true
  | _, _ => false

/-- Modelled from the spec: the `changeStatus` restricted entry point
("`changePriority`/`changeStatus` are restricted entry points that enforce
the transition table"; `NotFound` if unknown id, `InvalidTransition` if the
requested change is illegal).  On success it issues the SQL status
`UPDATE`, which fires the schema triggers. -/
def changeStatus (now : Nat) (db : Db) (rowId : Nat) (s : Status) : Except ApiError Db :=
  match findRow db.backlog_items rowId with
  | none => Except.error ApiError.NotFound
  | some r =>
      if allowedTransition r.status s then
        Except.ok (step now db (Mutation.setStatus rowId s))
      else
        Except.error ApiError.InvalidTransition

/-- Modelled from the spec: the `DELETE /backlog/{id}` handler (only its
frontend caller `deleteTask` and the API documentation are in the sources).
Per the spec, an item is "never physically deleted; 'removal' is a status
transition to `cancelled`", and status changes go through the restricted
entry point, so removal of an item in a terminal state is rejected and
changes nothing. -/
def deleteTask (now : Nat) (db : Db) (ext : String) : Db :=
  match db.backlog_items.find? (fun r => r.external_id == ext) with
  | none => db
  | some r =>
      match changeStatus now db r.id Status.cancelled with
      | Except.ok db' => db'
      | Except.error _ => db

/-- The exposed item mutations: status changes go through the guarded
`changeStatus` entry point; the other operations issue their SQL statements
directly. -/
inductive GuardedOp
  | chgStatus (rowId : Nat) (s : Status)
  | chgPriority (rowId : Nat) (p : Priority)
  | editTitle (rowId : Nat) (t : String)
  | editDescription (rowId : Nat) (d : Option String)
  | createItem (row : ItemRow)
  | removeTask (ext : String)
deriving DecidableEq, Repr

/-- Apply one exposed operation; a failed `changeStatus` returns its error to
the caller and leaves the database unchanged. -/
def apiStep (now : Nat) (db : Db) (op : GuardedOp) : Db :=
  match op with
  | GuardedOp.chgStatus i s =>
      match changeStatus now db i s with
      | Except.ok db' => db'
      | Except.error _ => db
  | GuardedOp.chgPriority i p => step now db (Mutation.setPriority i p)
  | GuardedOp.editTitle i t => step now db (Mutation.setTitle i t)
  | GuardedOp.editDescription i d => step now db (Mutation.setDescription i d)
  | GuardedOp.createItem r => step now db (Mutation.insert r)
  | GuardedOp.removeTask e => deleteTask now db e

/-- A sequence of timestamped exposed operations. -/
def apiRun (db : Db) (ops : List (Nat × GuardedOp)) : Db :=
  ops.foldl (fun d nm => apiStep nm.1 d nm.2) db

/-- The `CASE priority WHEN 'P0' THEN 1 ... END` expression of
`v_active_by_priority`. -/
def priorityCase : Priority → Nat
  | Priority.P0 => 1
  | Priority.P1 => 2
  | Priority.P2 => 3
  | Priority.P3 => 4

/-- The `ORDER BY` key of `v_active_by_priority`: by the priority `CASE`
expression, then `created_at ASC`. -/
def activeOrder (a b : ItemRow) : Prop :=
  priorityCase a.priority < priorityCase b.priority ∨
    (priorityCase a.priority = priorityCase b.priority ∧ a.created_at ≤ b.created_at)

instance : DecidableRel activeOrder := fun a b => by
  unfold activeOrder; infer_instance

/-- One row of the `v_active_by_priority` view (schema.sql:124-143).
`days_old` is `JULIANDAY('now') - JULIANDAY(created_at)`, modelled at the
abstract instant `now`. -/
structure ActiveViewRow where
  external_id : String
  title : String
  category : String
  priority : Priority
  status : Status
  next_action : Option String
  created_at : Nat
  days_old : Nat
deriving DecidableEq, Repr

/-- The view `v_active_by_priority`: `WHERE status NOT IN ('done',
'cancelled') ORDER BY CASE priority ..., created_at ASC`.  The `ORDER BY` is
modelled as a stable sort on its two keys, so rows tied on both keys keep
their table order. -/
def v_active_by_priority (now : Nat) (items : List ItemRow) : List ActiveViewRow :=
  ((items.filter (fun r =>
      !(r.status == Status.done || r.status == Status.cancelled))).insertionSort
        activeOrder).map
    (fun r =>
      { external_id := r.external_id, title := r.title, category := r.category,
        priority := r.priority, status := r.status, next_action := r.next_action,
        created_at := r.created_at, days_old := now - r.created_at })

/-- The ordering the spec claims for the ranking output: priority rank, then
`created_at` ascending, then the external id (compared lexicographically as
its character sequence). -/
def specTieOrder (a b : ActiveViewRow) : Prop :=
  priorityCase a.priority < priorityCase b.priority ∨
    (priorityCase a.priority = priorityCase b.priority ∧
      (a.created_at < b.created_at ∨
        (a.created_at = b.created_at ∧
          (a.external_id.data < b.external_id.data ∨
            a.external_id.data = b.external_id.data))))

/-- One row of the `clarifications` table (schema.sql:79-93). -/
structure ClarRow where
  id : Nat
  item_id : Nat
  question : String
  answer : Option String
  asked_at : Nat
  answered_at : Option Nat
  thread_ts : Option String
deriving DecidableEq, Repr

/-- The clarification coordinator's state: the backlog database, the
`clarifications` table with its `AUTOINCREMENT` counter, and (modelled from
the spec) the remembered pre-clarification status per item — the spec has
answering "transition status back to its pre-clarification value (default
`open`)", and no schema column stores that value. -/
structure ClarDb where
  db : Db
  clarifications : List ClarRow
  next_clar_id : Nat
  prior_status : List (Nat × Status)
deriving DecidableEq, Repr

/-- Append one application-written event row (the coordinator's
`clarification_asked` / `clarification_answered` writes). -/
def appendEvent (db : Db) (itemId : Nat) (ext t : String) (d : EventData) (now : Nat) : Db :=
  { db with
    backlog_events := db.backlog_events ++
      [{ id := db.next_event_id, item_id := itemId, external_id := ext,
         event_type := t, event_data := d, actor_type := "system", created_at := now }],
    next_event_id := db.next_event_id + 1 }

/-- The remembered pre-clarification status of an item, default `open`. -/
def priorStatusOf (s : ClarDb) (itemId : Nat) : Status :=
  ((s.prior_status.find? (fun p => p.1 == itemId)).map (fun p => p.2)).getD Status.open_

/-- Modelled from the spec: `ask(item_id, question, thread_ref)` — "creates a
Clarification row, forces item status to `needs_clarification`, writes
`clarification_asked` Event" (§4.2).  The first `ask` on an item records its
current status as the pre-clarification value.  Unknown items are left
untouched. -/
def ask (now : Nat) (s : ClarDb) (itemId : Nat) (q : String) (th : Option String) : ClarDb :=
  match findRow s.db.backlog_items itemId with
  | none => s
  | some r =>
      let pr :=
        if r.status = Status.needs_clarification then s.prior_status
        else (itemId, r.status) :: s.prior_status.filter (fun p => !(p.1 == itemId))
      let db1 := step now s.db (Mutation.setStatus itemId Status.needs_clarification)
      let db2 := appendEvent db1 itemId r.external_id "clarification_asked"
        (EventData.clarificationAsked q) now
      { db := db2,
        clarifications := s.clarifications ++
          [{ id := s.next_clar_id, item_id := itemId, question := q, answer := none,
             asked_at := now, answered_at := none, thread_ts := th }],
        next_clar_id := s.next_clar_id + 1,
        prior_status := pr }

/-- The state change `answer` performs on a not-yet-answered clarification
`c`: record answer and timestamp, write the `clarification_answered` Event,
and — when no open clarification remains for the item — transition the item
back to its remembered pre-clarification status and drop the record. -/
def answerFresh (now : Nat) (s : ClarDb) (c : ClarRow) (text : String) : ClarDb :=
  let clars := s.clarifications.map (fun c' =>
    if c'.id == c.id then
      { c' with answer := some text, answered_at := some now }
    else c')
  let db1 := appendEvent s.db c.item_id
    ((findRow s.db.backlog_items c.item_id).elim "" (fun r => r.external_id))
    "clarification_answered" (EventData.clarificationAnswered c.question text) now
  if clars.any (fun c' => c'.item_id == c.item_id && c'.answer == none) then
    { s with db := db1, clarifications := clars }
  else
    { db := step now db1 (Mutation.setStatus c.item_id (priorStatusOf s c.item_id)),
      clarifications := clars, next_clar_id := s.next_clar_id,
      prior_status := s.prior_status.filter (fun p => !(p.1 == c.item_id)) }

/-- Modelled from the spec: `answer(item_id, question_ref, answer_text)` —
"fails with `NotFound` if the clarification doesn't exist; if already
answered, returns prior answer (idempotent); otherwise records
answer/timestamp, writes `clarification_answered` Event, and if no
clarifications remain open for the item, transitions status back to its
pre-clarification value (default `open`) — never duplicates the item"
(§4.2).  Returns the effective answer together with the new state. -/
def answer (now : Nat) (s : ClarDb) (clarId : Nat) (text : String) :
    Except ApiError (String × ClarDb) :=
  match s.clarifications.find? (fun c => c.id == clarId) with
  | none => Except.error ApiError.NotFound
  | some c =>
      match c.answer with
      | some prior => Except.ok (prior, s)
      | none => Except.ok (text, answerFresh now s c text)

/-- The session lifecycle states (§4.4 and the Kanban board columns of the
dashboard). -/
inductive SessionState
  | idle
  | working
  | waiting_for_approval
  | waiting_for_input
  | paused
  | completed
  | failed
deriving DecidableEq, Repr

/-- A session row: `(session_id, project_id, agent_type, goal, state, result,
error, created_at, updated_at)`. -/
structure Session where
  session_id : String
  project_id : String
  agent_type : String
  goal : String
  state : SessionState
  result : Option String
  error : Option String
  created_at : Nat
  updated_at : Nat
deriving DecidableEq, Repr

/-- The session store. -/
structure SessionDb where
  sessions : List Session
deriving DecidableEq, Repr

/-- Terminal session states: `completed`, `failed`. -/
def SessionState.isTerminal : SessionState → Bool
  | SessionState.completed => true
  | SessionState.failed => true
  | _ => false

/-- The session commands of the spec's contract (§4.4), as the frontend
issues them against `/kanban/sessions`. -/
inductive SessionOp
  | create (session_id project_id goal agent_type : String)
  | start (id : String)
  | requestApproval (id : String) (reason : String)
  | resolveApproval (id : String) (approved : Bool) (reason : Option String)
  | pause (id : String)
  | resume (id : String)
  | complete (id : String) (result : Option String)
  | fail (id : String) (error : Option String)
deriving DecidableEq, Repr

/-- Look up a session by id. -/
def findSession (sdb : SessionDb) (id : String) : Option Session :=
  sdb.sessions.find? (fun s => s.session_id == id)

/-- The current state of a session id, if it exists. -/
def stateOf (sdb : SessionDb) (id : String) : Option SessionState :=
  (findSession sdb id).map (fun s => s.state)

/-- Replace the session with the given id. -/
def setSession (sdb : SessionDb) (id : String) (f : Session → Session) : SessionDb :=
  { sessions := sdb.sessions.map (fun s => if s.session_id == id then f s else s) }

/-- Modelled from the spec: the Session State Machine contract (§4.4) — the
`/kanban/sessions` handlers are not in the sources, only their frontend
callers.  `create` fails with `Conflict` on a duplicate id; `start` is legal
only from `idle`; `requestApproval` moves `working → waiting_for_approval`;
`resolveApproval` moves to `working` (approved) or `failed` (denied) and is
only legal from `waiting_for_approval`; `pause`/`resume` toggle between
`working` and `paused`; `complete`/`fail` are legal from any non-terminal
state.  Any other request fails with `InvalidTransition` (or `NotFound`). -/
def sessionStep (now : Nat) (sdb : SessionDb) (op : SessionOp) : Except ApiError SessionDb :=
  match op with
  | SessionOp.create sid pid goal agent =>
      match findSession sdb sid with
      | some _ => Except.error ApiError.Conflict
      | none =>
          Except.ok { sessions := sdb.sessions ++
            [{ session_id := sid, project_id := pid, agent_type := agent, goal := goal,
               state := SessionState.idle, result := none, error := none,
               created_at := now, updated_at := now }] }
  | SessionOp.start id =>
      match findSession sdb id with
      | none => Except.error ApiError.NotFound
      | some s =>
          if s.state = SessionState.idle then
            Except.ok (setSession sdb id (fun s' =>
              { s' with state := SessionState.working, updated_at := now }))
          else Except.error ApiError.InvalidTransition
  | SessionOp.requestApproval id _ =>
      match findSession sdb id with
      | none => Except.error ApiError.NotFound
      | some s =>
          if s.state = SessionState.working then
            Except.ok (setSession sdb id (fun s' =>
              { s' with state := SessionState.waiting_for_approval, updated_at := now }))
          else Except.error ApiError.InvalidTransition
  | SessionOp.resolveApproval id approved reason =>
      match findSession sdb id with
      | none => Except.error ApiError.NotFound
      | some s =>
          if s.state = SessionState.waiting_for_approval then
            if approved then
              Except.ok (setSession sdb id (fun s' =>
                { s' with state := SessionState.working, updated_at := now }))
            else
              Except.ok (setSession sdb id (fun s' =>
                { s' with state := SessionState.failed, error := reason, updated_at := now }))
          else Except.error ApiError.InvalidTransition
  | SessionOp.pause id =>
      match findSession sdb id with
      | none => Except.error ApiError.NotFound
      | some s =>
          if s.state = SessionState.working then
            Except.ok (setSession sdb id (fun s' =>
              { s' with state := SessionState.paused, updated_at := now }))
          else Except.error ApiError.InvalidTransition
  | SessionOp.resume id =>
      match findSession sdb id with
      | none => Except.error ApiError.NotFound
      | some s =>
          if s.state = SessionState.paused then
            Except.ok (setSession sdb id (fun s' =>
              { s' with state := SessionState.working, updated_at := now }))
          else Except.error ApiError.InvalidTransition
  | SessionOp.complete id result =>
      match findSession sdb id with
      | none => Except.error ApiError.NotFound
      | some s =>
          if s.state.isTerminal then Except.error ApiError.InvalidTransition
          else
            Except.ok (setSession sdb id (fun s' =>
              { s' with state := SessionState.completed, result := result, updated_at := now }))
  | SessionOp.fail id err =>
      match findSession sdb id with
      | none => Except.error ApiError.NotFound
      | some s =>
          if s.state.isTerminal then Except.error ApiError.InvalidTransition
          else
            Except.ok (setSession sdb id (fun s' =>
              { s' with state := SessionState.failed, error := err, updated_at := now }))

/-- Apply one session command; a rejected command returns its error to its
caller and leaves the store unchanged. -/
def sessionApply (now : Nat) (sdb : SessionDb) (op : SessionOp) : SessionDb :=
  match sessionStep now sdb op with
  | Except.ok d => d
  | Except.error _ => sdb

/-- Apply a sequence of session commands. -/
def sessionRun (sdb : SessionDb) (ops : List (Nat × SessionOp)) : SessionDb :=
  ops.foldl (fun d nm => sessionApply nm.1 d nm.2) sdb

/-- The dashboard scenario of the spec (§8): create `s1`, start it, request
approval. -/
def sessionScenario : SessionDb :=
  sessionRun { sessions := [] }
    [(0, SessionOp.create "s1" "proj-x" "Refactor auth" "general"),
     (1, SessionOp.start "s1"),
     (2, SessionOp.requestApproval "s1" "destructive rename")]

/-- The session `s1` as it stands in `sessionScenario`. -/
def scenarioSession : Session :=
  { session_id := "s1", project_id := "proj-x", agent_type := "general",
    goal := "Refactor auth", state := SessionState.waiting_for_approval,
    result := none, error := none, created_at := 0, updated_at := 2 }

/-- The state of the frontend `WebSocketManager`
(websocket-manager.js): whether `ws.readyState === OPEN`, the
`isConnecting` flag, the `messageQueue` array, the reconnect attempt
counter, and the messages actually passed to `ws.send`. -/
structure WebSocketManagerState where
  connected : Bool
  isConnecting : Bool
  messageQueue : List String
  reconnectAttempts : Nat
  sent : List String
deriving DecidableEq, Repr

/-- The method `send(type, payload)` (websocket-manager.js:112-126): if the socket is
open the message goes straight to `ws.send`; otherwise it is pushed onto
`messageQueue` and a connection attempt starts. -/
def WebSocketManagerState.send (m : WebSocketManagerState) (msg : String) :
    WebSocketManagerState :=
  if m.connected then { m with sent := m.sent ++ [msg] }
  else { m with messageQueue := m.messageQueue ++ [msg], isConnecting := true }

/-- The method `flushQueue()` (websocket-manager.js:131-136): while the socket is open,
shift queued messages to `ws.send`; if it is not open, the loop body never
runs. -/
def WebSocketManagerState.flushQueue (m : WebSocketManagerState) : WebSocketManagerState :=
  if m.connected then { m with messageQueue := [], sent := m.sent ++ m.messageQueue }
  else m

/-- The `onopen` handler (websocket-manager.js:42-56): clears `isConnecting`,
resets the attempt counter and flushes the queue. -/
def WebSocketManagerState.onopen (m : WebSocketManagerState) : WebSocketManagerState :=
  WebSocketManagerState.flushQueue
    { m with connected := true, isConnecting := false, reconnectAttempts := 0 }

/-- The backoff delay `attemptReconnect` computes
(websocket-manager.js:148-151): `Math.min(this.reconnectDelay *
Math.pow(2, this.reconnectAttempts), this.maxReconnectDelay)` with
`reconnectDelay = 1000` and `maxReconnectDelay = 30000` from the
constructor. -/
def reconnectBackoff (attempts : Nat) : Nat :=
  min (1000 * 2 ^ attempts) 30000

/-- The `attemptReconnect` handler (websocket-manager.js:141-167), invoked
by `onclose` for a disconnected observer.  If `reconnectAttempts` has
reached `maxReconnectAttempts = 10` it emits `ws:reconnect_failed` and
schedules nothing, changing no state; otherwise it schedules a `connect`
after the exponential-backoff delay.  The returned state is the manager
once the scheduled callback has run (`reconnectAttempts++` and `connect()`
setting `isConnecting`); the returned `Option Nat` is the scheduled delay,
`none` when the handler gave up. -/
def WebSocketManagerState.attemptReconnect (m : WebSocketManagerState) :
    WebSocketManagerState × Option Nat :=
  if 10 ≤ m.reconnectAttempts then (m, none)
  else
    ({ m with reconnectAttempts := m.reconnectAttempts + 1, isConnecting := true },
      some (reconnectBackoff m.reconnectAttempts))

/-- The initial manager state (`constructor`, websocket-manager.js:8-19). -/
def initialManager : WebSocketManagerState :=
  { connected := false, isConnecting := false, messageQueue := [],
    reconnectAttempts := 0, sent := [] }

/-- Repeated calls of `send`, one per message. -/
def sendAll (m : WebSocketManagerState) (msgs : List String) : WebSocketManagerState :=
  msgs.foldl WebSocketManagerState.send m

/-- The row id a mutation's `UPDATE ... WHERE id = ?` targets, if any. -/
def mutationTarget : Mutation → Option Nat
  | Mutation.insert _ => none
  | Mutation.setStatus i _ => some i
  | Mutation.setPriority i _ => some i
  | Mutation.setTitle i _ => some i
  | Mutation.setDescription i _ => some i

/-- Replay soundness for one item: the item's materialized row agrees, on
`status` and `priority`, with the replay of its stored Event sequence over
its creation row `r0`. -/
def ReplayInv (r0 : ItemRow) (db : Db) : Prop :=
  ∃ r', findRow db.backlog_items r0.id = some r' ∧
    (replay r0 (eventsFor db r0.id)).status = r'.status ∧
    (replay r0 (eventsFor db r0.id)).priority = r'.priority

/-- The `completed_at` invariant together with primary-key uniqueness:
row ids are pairwise distinct, and a row is in status `done` exactly when its
`completed_at` is set. -/
def ItemInv (db : Db) : Prop :=
  (db.backlog_items.map (fun r => r.id)).Nodup ∧
    ∀ r ∈ db.backlog_items, (r.status = Status.done ↔ r.completed_at ≠ none)

instance : DecidableRel specTieOrder := fun a b => by
  unfold specTieOrder; infer_instance

instance : IsTotal ItemRow activeOrder :=
  ⟨by intro a b; unfold activeOrder; omega⟩

instance : IsTrans ItemRow activeOrder :=
  ⟨by intro a b c hab hbc; unfold activeOrder at *; omega⟩

/-- A concrete open item, used as a witness input. -/
def sampleItem : ItemRow :=
  { id := 1, external_id := "itm-1", title := "Fix login bug",
    priority := Priority.P1, created_at := 3 }

/-- A concrete database holding just `sampleItem`. -/
def sampleDb : Db :=
  { backlog_items := [sampleItem], backlog_events := [], next_event_id := 0 }

/-- A concrete blocked item, used as a witness input. -/
def blockedItem : ItemRow :=
  { id := 1, external_id := "itm-1", title := "Fix login bug",
    priority := Priority.P1, status := Status.blocked, created_at := 3 }

/-- A concrete database holding just `blockedItem`. -/
def blockedDb : Db :=
  { backlog_items := [blockedItem], backlog_events := [], next_event_id := 0 }

/-- A row inserted directly in status `done` (the schema `CHECK` allows it). -/
def doneInsertRow : ItemRow :=
  { id := 1, external_id := "done-1", title := "already done", status := Status.done }

/-- A concrete completed item, used as a witness input. -/
def doneItem : ItemRow :=
  { id := 1, external_id := "itm-1", title := "Fix login bug",
    status := Status.done, completed_at := some 5, created_at := 3 }

/-- A concrete database holding just `doneItem`. -/
def doneDb : Db :=
  { backlog_items := [doneItem], backlog_events := [], next_event_id := 0 }

/-- A backlog database holding a single freshly created row. -/
def singleItemDb (r0 : ItemRow) (k : Nat) : Db :=
  { backlog_items := [r0], backlog_events := [], next_event_id := k }

/-- A concrete mutation sequence used as a witness input for replay. -/
def replayOps : List (Nat × Mutation) :=
  [(2, Mutation.setStatus 1 Status.needs_clarification),
   (3, Mutation.setPriority 1 Priority.P0)]

/-- The row `sampleItem` becomes after `replayOps`. -/
def replayedRow : ItemRow :=
  { id := 1, external_id := "itm-1", title := "Fix login bug",
    priority := Priority.P0, status := Status.needs_clarification,
    created_at := 3, updated_at := 3 }

/-- A concrete coordinator state: one open clarification asked on
`sampleItem`. -/
def clarDbW : ClarDb :=
  ask 1 { db := sampleDb, clarifications := [], next_clar_id := 0, prior_status := [] }
    1 "Which environment?" none

/-- The state `clarDbW` after its clarification is answered. -/
def clarDbW2 : ClarDb :=
  match answer 2 clarDbW 0 "production" with
  | Except.ok p => p.2
  | Except.error _ => clarDbW

/-- The open clarification row of `clarDbW`. -/
def askedClar : ClarRow :=
  { id := 0, item_id := 1, question := "Which environment?", answer := none,
    asked_at := 1, answered_at := none, thread_ts := none }

/-- The answered clarification row of `clarDbW2`. -/
def answeredClar : ClarRow :=
  { id := 0, item_id := 1, question := "Which environment?", answer := some "production",
    asked_at := 1, answered_at := some 2, thread_ts := none }

/-- The item row of `clarDbW` (forced to `needs_clarification` by `ask`). -/
def clarItemRow : ItemRow :=
  { id := 1, external_id := "itm-1", title := "Fix login bug",
    priority := Priority.P1, status := Status.needs_clarification,
    created_at := 3, updated_at := 1 }

/-- Two active items tied on priority and `created_at` whose external ids are
against their table order. -/
def tieItemB : ItemRow :=
  { id := 1, external_id := "b", title := "first created",
    priority := Priority.P1, created_at := 5 }

/-- See `tieItemB`. -/
def tieItemA : ItemRow :=
  { id := 2, external_id := "a", title := "second created",
    priority := Priority.P1, created_at := 5 }

/-! ### Basic facts about the triggers' row-level effects -/

@[simp] theorem trg_backlog_updated_id (now : Nat) (r : ItemRow) :
    (trg_backlog_updated now r).id = r.id := rfl

@[simp] theorem trg_backlog_updated_external_id (now : Nat) (r : ItemRow) :
    (trg_backlog_updated now r).external_id = r.external_id := rfl

@[simp] theorem trg_backlog_updated_status (now : Nat) (r : ItemRow) :
    (trg_backlog_updated now r).status = r.status := rfl

@[simp] theorem trg_backlog_updated_priority (now : Nat) (r : ItemRow) :
    (trg_backlog_updated now r).priority = r.priority := rfl

@[simp] theorem trg_backlog_updated_completed_at (now : Nat) (r : ItemRow) :
    (trg_backlog_updated now r).completed_at = r.completed_at := rfl

@[simp] theorem trg_backlog_updated_updated_at (now : Nat) (r : ItemRow) :
    (trg_backlog_updated now r).updated_at = now := rfl

@[simp] theorem trg_set_completed_at_id (now : Nat) (os : Status) (r : ItemRow) :
    (trg_set_completed_at now os r).id = r.id := by
  unfold trg_set_completed_at; split <;> rfl

@[simp] theorem trg_set_completed_at_external_id (now : Nat) (os : Status) (r : ItemRow) :
    (trg_set_completed_at now os r).external_id = r.external_id := by
  unfold trg_set_completed_at; split <;> rfl

@[simp] theorem trg_set_completed_at_status (now : Nat) (os : Status) (r : ItemRow) :
    (trg_set_completed_at now os r).status = r.status := by
  unfold trg_set_completed_at; split <;> rfl

@[simp] theorem trg_set_completed_at_priority (now : Nat) (os : Status) (r : ItemRow) :
    (trg_set_completed_at now os r).priority = r.priority := by
  unfold trg_set_completed_at; split <;> rfl

@[simp] theorem trg_set_completed_at_updated_at (now : Nat) (os : Status) (r : ItemRow) :
    (trg_set_completed_at now os r).updated_at = r.updated_at := by
  unfold trg_set_completed_at; split <;> rfl

theorem trg_set_completed_at_completed_at (now : Nat) (os : Status) (r : ItemRow) :
    (trg_set_completed_at now os r).completed_at =
      if r.status = Status.done ∧ os ≠ Status.done then some now else r.completed_at := by
  unfold trg_set_completed_at; split <;> simp_all

/-! ### Facts about `findRow` and `updateRow` -/

theorem findRow_updateRow (f : ItemRow → ItemRow) (hf : ∀ r, (f r).id = r.id)
    (items : List ItemRow) (rowId j : Nat) :
    findRow (updateRow rowId f items) j =
      (findRow items j).map (fun r => if r.id == rowId then f r else r) := by
  induction items with
  | nil => rfl
  | cons a l ih =>
      have hid : (if a.id == rowId then f a else a).id = a.id := by
        by_cases h : a.id = rowId <;> simp [h, hf]
      unfold updateRow findRow at *
      simp only [List.map_cons]
      by_cases hj : a.id = j
      · rw [List.find?_cons_of_pos _ (by subst hj; by_cases h : a.id = rowId <;> simp [h, hf]),
          List.find?_cons_of_pos _ (by simp [hj])]
        rfl
      · rw [List.find?_cons_of_neg _ (by
            by_cases h : a.id = rowId
            · simp [h, hf, hj]
              omega
            · simp [h, hf, hj]),
          List.find?_cons_of_neg _ (by simp [hj])]
        exact ih

theorem findRow_updateRow_self (f : ItemRow → ItemRow) (hf : ∀ r, (f r).id = r.id)
    (items : List ItemRow) (rowId : Nat) :
    findRow (updateRow rowId f items) rowId = (findRow items rowId).map f := by
  rw [findRow_updateRow f hf]
  cases h : findRow items rowId with
  | none => rfl
  | some r =>
      have hr := List.find?_some h
      simp only [beq_iff_eq] at hr
      simp [hr]

theorem findRow_updateRow_ne (f : ItemRow → ItemRow) (hf : ∀ r, (f r).id = r.id)
    (items : List ItemRow) (rowId j : Nat) (hne : j ≠ rowId) :
    findRow (updateRow rowId f items) j = findRow items j := by
  rw [findRow_updateRow f hf]
  cases h : findRow items j with
  | none => rfl
  | some r =>
      have hr := List.find?_some h
      simp only [beq_iff_eq] at hr
      subst hr
      simp [hne]

theorem findRow_append_of_isSome (items extra : List ItemRow) (j : Nat)
    (h : (findRow items j).isSome) :
    findRow (items ++ extra) j = findRow items j := by
  unfold findRow at *
  cases hf : items.find? (fun r => r.id == j) with
  | none => rw [hf] at h; simp at h
  | some r => rw [List.find?_append, hf]; rfl

theorem findRow_id (items : List ItemRow) (j : Nat) (r : ItemRow)
    (h : findRow items j = some r) : r.id = j := by
  have := List.find?_some h
  simpa using this

theorem updateRow_map_ids (rowId : Nat) (f : ItemRow → ItemRow)
    (hf : ∀ r, (f r).id = r.id) (items : List ItemRow) :
    (updateRow rowId f items).map (fun r => r.id) = items.map (fun r => r.id) := by
  unfold updateRow
  rw [List.map_map]
  refine List.map_congr_left ?_
  intro a _
  by_cases h : a.id = rowId <;> simp [h, hf]

theorem updateRow_map_key (rowId : Nat) (f : ItemRow → ItemRow)
    (hf : ∀ r, (f r).id = r.id ∧ (f r).external_id = r.external_id)
    (items : List ItemRow) :
    (updateRow rowId f items).map (fun r => (r.id, r.external_id)) =
      items.map (fun r => (r.id, r.external_id)) := by
  unfold updateRow
  rw [List.map_map]
  refine List.map_congr_left ?_
  intro a _
  by_cases h : a.id = rowId <;> simp [h, (hf a).1, (hf a).2]

theorem mem_updateRow (rowId : Nat) (f : ItemRow → ItemRow) (items : List ItemRow)
    (r : ItemRow) (hr : r ∈ items) :
    (if r.id == rowId then f r else r) ∈ updateRow rowId f items :=
  List.mem_map_of_mem _ hr

/-! ### Facts about `step`, `apiStep` and their runs -/

theorem step_survives (now : Nat) (db : Db) (m : Mutation) (r : ItemRow)
    (hr : r ∈ db.backlog_items) :
    ∃ r' ∈ (step now db m).backlog_items, r'.id = r.id ∧ r'.external_id = r.external_id := by
  cases m with
  | insert row =>
      simp only [step]
      split
      · exact ⟨r, hr, rfl, rfl⟩
      · exact ⟨r, List.mem_append_left _ hr, rfl, rfl⟩
  | setStatus rowId s =>
      simp only [step]
      cases h : findRow db.backlog_items rowId with
      | none => exact ⟨r, hr, rfl, rfl⟩
      | some oldRow =>
          refine ⟨_, mem_updateRow _ _ _ _ hr, ?_, ?_⟩ <;>
            by_cases hc : r.id = rowId <;> simp [hc]
  | setPriority rowId p =>
      simp only [step]
      cases h : findRow db.backlog_items rowId with
      | none => exact ⟨r, hr, rfl, rfl⟩
      | some oldRow =>
          refine ⟨_, mem_updateRow _ _ _ _ hr, ?_, ?_⟩ <;>
            by_cases hc : r.id = rowId <;> simp [hc]
  | setTitle rowId t =>
      simp only [step]
      cases h : findRow db.backlog_items rowId with
      | none => exact ⟨r, hr, rfl, rfl⟩
      | some oldRow =>
          refine ⟨_, mem_updateRow _ _ _ _ hr, ?_, ?_⟩ <;>
            by_cases hc : r.id = rowId <;> simp [hc]
  | setDescription rowId d =>
      simp only [step]
      cases h : findRow db.backlog_items rowId with
      | none => exact ⟨r, hr, rfl, rfl⟩
      | some oldRow =>
          refine ⟨_, mem_updateRow _ _ _ _ hr, ?_, ?_⟩ <;>
            by_cases hc : r.id = rowId <;> simp [hc]

theorem apiStep_cases (now : Nat) (db : Db) (op : GuardedOp) :
    apiStep now db op = db ∨ ∃ m, apiStep now db op = step now db m := by
  cases op with
  | chgStatus i s =>
      simp only [apiStep, changeStatus]
      cases h : findRow db.backlog_items i with
      | none => exact Or.inl rfl
      | some r =>
          by_cases ha : allowedTransition r.status s = true
          · simp only [ha, if_true]
            exact Or.inr ⟨Mutation.setStatus i s, rfl⟩
          · simp only [Bool.not_eq_true] at ha
            simp only [ha]
            exact Or.inl rfl
  | chgPriority i p => exact Or.inr ⟨Mutation.setPriority i p, rfl⟩
  | editTitle i t => exact Or.inr ⟨Mutation.setTitle i t, rfl⟩
  | editDescription i d => exact Or.inr ⟨Mutation.setDescription i d, rfl⟩
  | createItem row => exact Or.inr ⟨Mutation.insert row, rfl⟩
  | removeTask e =>
      simp only [apiStep, deleteTask, changeStatus]
      cases h : db.backlog_items.find? (fun r => r.external_id == e) with
      | none => exact Or.inl rfl
      | some r =>
          cases h2 : findRow db.backlog_items r.id with
          | none => simp [h2]
          | some r2 =>
              simp only [h2]
              by_cases ha : allowedTransition r2.status Status.cancelled = true
              · simp only [ha, if_true]
                exact Or.inr ⟨Mutation.setStatus r.id Status.cancelled, rfl⟩
              · simp only [Bool.not_eq_true] at ha
                simp only [ha]
                exact Or.inl rfl

theorem apiStep_survives (now : Nat) (db : Db) (op : GuardedOp) (r : ItemRow)
    (hr : r ∈ db.backlog_items) :
    ∃ r' ∈ (apiStep now db op).backlog_items, r'.id = r.id ∧ r'.external_id = r.external_id := by
  rcases apiStep_cases now db op with h | ⟨m, h⟩
  · rw [h]; exact ⟨r, hr, rfl, rfl⟩
  · rw [h]; exact step_survives now db m r hr

theorem apiRun_survives (ops : List (Nat × GuardedOp)) (db : Db) (r : ItemRow)
    (hr : r ∈ db.backlog_items) :
    ∃ r' ∈ (apiRun db ops).backlog_items, r'.id = r.id ∧ r'.external_id = r.external_id := by
  induction ops generalizing db r with
  | nil => exact ⟨r, hr, rfl, rfl⟩
  | cons nm rest ih =>
      obtain ⟨r1, hr1, hid1, hext1⟩ := apiStep_survives nm.1 db nm.2 r hr
      obtain ⟨r2, hr2, hid2, hext2⟩ := ih (apiStep nm.1 db nm.2) r1 hr1
      exact ⟨r2, hr2, by rw [hid2, hid1], by rw [hext2, hext1]⟩

theorem step_setStatus_keys (now : Nat) (db : Db) (i : Nat) (s : Status) :
    (step now db (Mutation.setStatus i s)).backlog_items.map (fun r => (r.id, r.external_id)) =
      db.backlog_items.map (fun r => (r.id, r.external_id)) := by
  simp only [step]
  cases h : findRow db.backlog_items i with
  | none => rfl
  | some r => exact updateRow_map_key _ _ (fun x => ⟨by simp, by simp⟩) _

theorem deleteTask_keys (now : Nat) (db : Db) (e : String) :
    (deleteTask now db e).backlog_items.map (fun r => (r.id, r.external_id)) =
      db.backlog_items.map (fun r => (r.id, r.external_id)) := by
  simp only [deleteTask, changeStatus]
  cases h : db.backlog_items.find? (fun r => r.external_id == e) with
  | none => rfl
  | some r =>
      cases h2 : findRow db.backlog_items r.id with
      | none => simp [h2]
      | some r2 =>
          simp only [h2]
          by_cases ha : allowedTransition r2.status Status.cancelled = true
          · simp only [ha, if_true]
            exact step_setStatus_keys now db r.id Status.cancelled
          · simp only [Bool.not_eq_true] at ha
            simp [ha]

theorem step_sets_updated_at (now : Nat) (db : Db) (m : Mutation) (i : Nat) (r : ItemRow)
    (hm : mutationTarget m = some i) (hr : findRow db.backlog_items i = some r) :
    (findRow (step now db m).backlog_items i).map (fun x => x.updated_at) = some now := by
  cases m with
  | insert row => simp [mutationTarget] at hm
  | setStatus rowId s =>
      simp only [mutationTarget, Option.some.injEq] at hm
      subst hm
      simp only [step, hr]
      rw [findRow_updateRow_self _ (fun x => by simp) _ _, hr]
      simp
  | setPriority rowId p =>
      simp only [mutationTarget, Option.some.injEq] at hm
      subst hm
      simp only [step, hr]
      rw [findRow_updateRow_self _ (fun x => by simp) _ _, hr]
      simp
  | setTitle rowId t =>
      simp only [mutationTarget, Option.some.injEq] at hm
      subst hm
      simp only [step, hr]
      rw [findRow_updateRow_self _ (fun x => by simp) _ _, hr]
      simp
  | setDescription rowId d =>
      simp only [mutationTarget, Option.some.injEq] at hm
      subst hm
      simp only [step, hr]
      rw [findRow_updateRow_self _ (fun x => by simp) _ _, hr]
      simp

theorem sendAll_disconnected (msgs : List String) (m : WebSocketManagerState)
    (h : m.connected = false) :
    (sendAll m msgs).connected = false ∧
    (sendAll m msgs).messageQueue = m.messageQueue ++ msgs := by
  induction msgs generalizing m with
  | nil => simp [sendAll, h]
  | cons a l ih =>
      have hs : (m.send a).connected = false := by
        simp [WebSocketManagerState.send, h]
      obtain ⟨h1, h2⟩ := ih (m.send a) hs
      have hq : (m.send a).messageQueue = m.messageQueue ++ [a] := by
        simp [WebSocketManagerState.send, h]
      refine ⟨h1, ?_⟩
      show (sendAll (m.send a) l).messageQueue = _
      rw [h2, hq]
      simp

/-! ### Claim theorems -/

/-- Claim C10 (confirmed): every `UPDATE` of a `backlog_items` row sets that
row's `updated_at` to the current instant via `trg_backlog_updated`, and the
trigger's own `UPDATE ... SET updated_at = CURRENT_TIMESTAMP WHERE id =
NEW.id` rewrites only the `updated_at` column of the row with the updated id
and leaves every other row exactly in place. -/
theorem trg_backlog_updated_frame :
    (∀ (now : Nat) (db : Db) (m : Mutation) (i : Nat) (r : ItemRow),
        mutationTarget m = some i → findRow db.backlog_items i = some r →
        (findRow (step now db m).backlog_items i).map (fun x => x.updated_at) = some now) ∧
    (∀ (now rowId : Nat) (items : List ItemRow) (k : Nat) (hk : k < items.length),
        ∃ hk2 : k < (updateRow rowId (trg_backlog_updated now) items).length,
          (updateRow rowId (trg_backlog_updated now) items).get ⟨k, hk2⟩ =
            (if (items.get ⟨k, hk⟩).id = rowId
             then { items.get ⟨k, hk⟩ with updated_at := now }
             else items.get ⟨k, hk⟩)) := by
  constructor
  · intro now db m i r hm hr
    exact step_sets_updated_at now db m i r hm hr
  · intro now rowId items k hk
    have hlen : (updateRow rowId (trg_backlog_updated now) items).length = items.length := by
      simp [updateRow]
    refine ⟨by omega, ?_⟩
    simp only [updateRow, List.get_eq_getElem, List.getElem_map]
    by_cases hc : (items.get ⟨k, hk⟩).id = rowId <;>
      simp [hc, trg_backlog_updated, List.get_eq_getElem]

/-- Witness for `trg_backlog_updated_frame` at a concrete database. -/
theorem trg_backlog_updated_frame_witness :
    (mutationTarget (Mutation.setTitle 1 "new title") = some 1 ∧
      findRow sampleDb.backlog_items 1 = some sampleItem ∧
      (findRow (step 7 sampleDb (Mutation.setTitle 1 "new title")).backlog_items 1).map
        (fun x => x.updated_at) = some 7) ∧
    (0 < sampleDb.backlog_items.length ∧
      ∃ hk2 : 0 < (updateRow 1 (trg_backlog_updated 7) sampleDb.backlog_items).length,
        (updateRow 1 (trg_backlog_updated 7) sampleDb.backlog_items).get ⟨0, hk2⟩ =
          (if (sampleDb.backlog_items.get ⟨0, by decide⟩).id = 1
           then { sampleDb.backlog_items.get ⟨0, by decide⟩ with updated_at := 7 }
           else sampleDb.backlog_items.get ⟨0, by decide⟩)) :=
  ⟨⟨rfl, by decide,
      trg_backlog_updated_frame.1 7 sampleDb (Mutation.setTitle 1 "new title") 1 sampleItem
        rfl (by decide)⟩,
    ⟨by decide, trg_backlog_updated_frame.2 7 1 sampleDb.backlog_items 0 (by decide)⟩⟩

/-- Claim C9 (corrected, counterexample): the per-observer queue of the
`WebSocketManager` is not bounded — for every proposed bound there is a
sequence of `send` calls on a disconnected manager whose queue exceeds it. -/
theorem ws_fanout_queue_not_bounded :
    ¬ ∃ B : Nat, ∀ msgs : List String,
        (sendAll initialManager msgs).messageQueue.length ≤ B := by
  rintro ⟨B, hB⟩
  have h := hB (List.replicate (B + 1) "change")
  have h2 := (sendAll_disconnected (List.replicate (B + 1) "change") initialManager rfl).2
  rw [h2] at h
  simp [initialManager] at h

/-- Claim C9 (amended): each `send` while the socket is not open appends the
message to `messageQueue`, which grows without bound (after sending `msgs`
from a fresh disconnected manager the queue holds exactly `msgs`); a `send`
while open bypasses the queue and goes to the socket; `flushQueue` on an open
socket delivers the whole queue in FIFO order and empties it; the `onopen`
handler resets the attempt counter and leaves an empty queue.  Queued
messages are never dropped.  A disconnected observer is handled by
`attemptReconnect`: while fewer than 10 attempts have been made it schedules
a reconnection after the exponential-backoff delay
`min(1000 * 2 ^ attempts, 30000)` ms, incrementing the attempt counter and
preserving the queue; once 10 attempts are reached it gives up, scheduling
nothing and changing no state; the scheduled delay never exceeds 30000 ms. -/
theorem ws_send_queue_growth :
    (∀ (m : WebSocketManagerState) (msg : String), m.connected = false →
        (m.send msg).messageQueue = m.messageQueue ++ [msg] ∧ (m.send msg).sent = m.sent) ∧
    (∀ (m : WebSocketManagerState) (msg : String), m.connected = true →
        (m.send msg).messageQueue = m.messageQueue ∧ (m.send msg).sent = m.sent ++ [msg]) ∧
    (∀ m : WebSocketManagerState, m.connected = true →
        m.flushQueue.messageQueue = [] ∧ m.flushQueue.sent = m.sent ++ m.messageQueue) ∧
    (∀ m : WebSocketManagerState,
        m.onopen.messageQueue = [] ∧ m.onopen.reconnectAttempts = 0) ∧
    (∀ msgs : List String, (sendAll initialManager msgs).messageQueue = msgs) ∧
    (∀ m : WebSocketManagerState, m.reconnectAttempts < 10 →
        m.attemptReconnect.1.reconnectAttempts = m.reconnectAttempts + 1 ∧
        m.attemptReconnect.2 = some (min (1000 * 2 ^ m.reconnectAttempts) 30000) ∧
        m.attemptReconnect.1.messageQueue = m.messageQueue ∧
        m.attemptReconnect.1.sent = m.sent) ∧
    (∀ m : WebSocketManagerState, 10 ≤ m.reconnectAttempts →
        m.attemptReconnect = (m, none)) ∧
    (∀ (m : WebSocketManagerState) (d : Nat),
        m.attemptReconnect.2 = some d → d ≤ 30000) := by
  refine ⟨?_, ?_, ?_, ?_, ?_, ?_, ?_, ?_⟩
  · intro m msg h
    constructor <;> simp [WebSocketManagerState.send, h]
  · intro m msg h
    constructor <;> simp [WebSocketManagerState.send, h]
  · intro m h
    constructor <;> simp [WebSocketManagerState.flushQueue, h]
  · intro m
    constructor <;> simp [WebSocketManagerState.onopen, WebSocketManagerState.flushQueue]
  · intro msgs
    simpa [initialManager] using (sendAll_disconnected msgs initialManager rfl).2
  · intro m h
    have hlt : ¬ 10 ≤ m.reconnectAttempts := by omega
    refine ⟨?_, ?_, ?_, ?_⟩ <;>
      simp [WebSocketManagerState.attemptReconnect, reconnectBackoff, hlt]
  · intro m h
    simp [WebSocketManagerState.attemptReconnect, h]
  · intro m d hd
    unfold WebSocketManagerState.attemptReconnect at hd
    split at hd
    · cases hd
    · simp only [Option.some.injEq] at hd
      subst hd
      unfold reconnectBackoff
      omega

/-- Witness for `ws_send_queue_growth` at a concrete manager state: a queued
send, a first backoff-scheduled reconnection, and the give-up state. -/
theorem ws_send_queue_growth_witness :
    initialManager.connected = false ∧
    (initialManager.send "update").messageQueue = initialManager.messageQueue ++ ["update"] ∧
    initialManager.reconnectAttempts < 10 ∧
    initialManager.attemptReconnect.2 =
      some (min (1000 * 2 ^ initialManager.reconnectAttempts) 30000) ∧
    (10 : Nat) ≤ 10 ∧
    WebSocketManagerState.attemptReconnect
        { initialManager with reconnectAttempts := 10 } =
      ({ initialManager with reconnectAttempts := 10 }, none) :=
  ⟨rfl, (ws_send_queue_growth.1 initialManager "update" rfl).1,
    by decide, (ws_send_queue_growth.2.2.2.2.2.1 initialManager (by decide)).2.1,
    by decide,
    ws_send_queue_growth.2.2.2.2.2.2.1 { initialManager with reconnectAttempts := 10 }
      (by decide)⟩

/-- Claim C2 (confirmed, spec-modelled delete): under any sequence of exposed
operations — status/priority changes, field edits, creation, and the
task-removal path — every item ever present in `backlog_items` remains
present with its identity, and the removal path changes no row's existence:
it maps the `(id, external_id)` list to itself, only transitioning the
found row's status to `cancelled`. -/
theorem items_never_physically_deleted :
    (∀ (db : Db) (ops : List (Nat × GuardedOp)) (r : ItemRow), r ∈ db.backlog_items →
        ∃ r' ∈ (apiRun db ops).backlog_items, r'.id = r.id ∧ r'.external_id = r.external_id) ∧
    (∀ (now : Nat) (db : Db) (e : String),
        (deleteTask now db e).backlog_items.map (fun r => (r.id, r.external_id)) =
          db.backlog_items.map (fun r => (r.id, r.external_id))) :=
  ⟨fun db ops r hr => apiRun_survives ops db r hr, deleteTask_keys⟩

/-- Witness for `items_never_physically_deleted`: the item survives its own
removal. -/
theorem items_never_physically_deleted_witness :
    sampleItem ∈ sampleDb.backlog_items ∧
    ∃ r' ∈ (apiRun sampleDb [(4, GuardedOp.removeTask "itm-1")]).backlog_items,
      r'.id = sampleItem.id ∧ r'.external_id = sampleItem.external_id :=
  ⟨by decide,
    items_never_physically_deleted.1 sampleDb [(4, GuardedOp.removeTask "itm-1")] sampleItem
      (by decide)⟩

/-- Claim C5 (confirmed, spec-modelled): `changeStatus` succeeds exactly on
the transitions of the item transition table; an unknown id fails with
`NotFound`; an illegal change fails with `InvalidTransition` and leaves the
database — in particular the item — unchanged; a legal change updates
exactly the targeted item's status and touches no other row. -/
theorem changeStatus_enforces_transition_table :
    ∀ (now : Nat) (db : Db) (rowId : Nat) (s : Status),
      (findRow db.backlog_items rowId = none →
        changeStatus now db rowId s = Except.error ApiError.NotFound) ∧
      (∀ r, findRow db.backlog_items rowId = some r →
        (allowedTransition r.status s = false →
          changeStatus now db rowId s = Except.error ApiError.InvalidTransition ∧
          apiStep now db (GuardedOp.chgStatus rowId s) = db) ∧
        (allowedTransition r.status s = true →
          ∃ db', changeStatus now db rowId s = Except.ok db' ∧
            (findRow db'.backlog_items rowId).map (fun x => x.status) = some s ∧
            db'.backlog_items.length = db.backlog_items.length ∧
            ∀ j, j ≠ rowId → findRow db'.backlog_items j = findRow db.backlog_items j)) := by
  intro now db rowId s
  constructor
  · intro h
    simp [changeStatus, h]
  · intro r hr
    constructor
    · intro ha
      constructor
      · simp [changeStatus, hr, ha]
      · simp [apiStep, changeStatus, hr, ha]
    · intro ha
      refine ⟨step now db (Mutation.setStatus rowId s), by simp [changeStatus, hr, ha],
        ?_, ?_, ?_⟩
      · simp only [step, hr]
        rw [findRow_updateRow_self _ (fun x => by simp) _ _, hr]
        simp
      · simp [step, hr, updateRow]
      · intro j hj
        simp only [step, hr]
        exact findRow_updateRow_ne _ (fun x => by simp) _ _ _ hj

/-- Witness for `changeStatus_enforces_transition_table`: from `open`,
moving to `done` is rejected and moving to `needs_clarification` succeeds. -/
theorem changeStatus_enforces_transition_table_witness :
    (findRow sampleDb.backlog_items 1 = some sampleItem ∧
      allowedTransition sampleItem.status Status.done = false ∧
      changeStatus 5 sampleDb 1 Status.done = Except.error ApiError.InvalidTransition) ∧
    (allowedTransition sampleItem.status Status.needs_clarification = true ∧
      ∃ db', changeStatus 5 sampleDb 1 Status.needs_clarification = Except.ok db' ∧
        (findRow db'.backlog_items 1).map (fun x => x.status) =
          some Status.needs_clarification ∧
        db'.backlog_items.length = sampleDb.backlog_items.length ∧
        ∀ j, j ≠ 1 → findRow db'.backlog_items j = findRow sampleDb.backlog_items j) :=
  ⟨⟨by decide, by decide,
      (((changeStatus_enforces_transition_table 5 sampleDb 1 Status.done).2 sampleItem
        (by decide)).1 (by decide)).1⟩,
    ⟨by decide,
      ((changeStatus_enforces_transition_table 5 sampleDb 1 Status.needs_clarification).2
        sampleItem (by decide)).2 (by decide)⟩⟩

theorem step_setStatus_events (now : Nat) (db : Db) (i : Nat) (s : Status) (r : ItemRow)
    (hr : findRow db.backlog_items i = some r) :
    (step now db (Mutation.setStatus i s)).backlog_events =
      db.backlog_events ++
        (if r.status ≠ s then
          [{ id := db.next_event_id, item_id := r.id, external_id := r.external_id,
             event_type := "status_changed",
             event_data := EventData.statusChange r.status s,
             actor_type := "system", created_at := now }]
        else []) := by
  simp only [step, hr]
  simp [trg_log_status_change]

theorem step_no_completed_events (now : Nat) (db : Db) (m : Mutation) :
    eventsOfType (step now db m) "completed" = eventsOfType db "completed" := by
  have hst : ("status_changed" == "completed") = false := by decide
  have hpr : ("priority_changed" == "completed") = false := by decide
  cases m with
  | insert row =>
      simp only [step]
      split <;> rfl
  | setStatus i s =>
      simp only [step]
      cases h : findRow db.backlog_items i with
      | none => rfl
      | some r =>
          unfold eventsOfType
          simp only [List.filter_append]
          have : (trg_log_status_change now db.next_event_id r
              { r with status := s }).filter (fun e => e.event_type == "completed") = [] := by
            unfold trg_log_status_change
            split <;> simp [hst]
          rw [this, List.append_nil]
  | setPriority i p =>
      simp only [step]
      cases h : findRow db.backlog_items i with
      | none => rfl
      | some r =>
          unfold eventsOfType
          simp only [List.filter_append]
          have : (trg_log_priority_change now db.next_event_id r
              { r with priority := p }).filter (fun e => e.event_type == "completed") = [] := by
            unfold trg_log_priority_change
            split <;> simp [hpr]
          rw [this, List.append_nil]
  | setTitle i t =>
      simp only [step]
      cases h : findRow db.backlog_items i with
      | none => rfl
      | some r => rfl
  | setDescription i d =>
      simp only [step]
      cases h : findRow db.backlog_items i with
      | none => rfl
      | some r => rfl

/-- Claim C4 (corrected, counterexample): the first transition of an item
into `done` writes one `status_changed` event and zero events of type
`completed`, not one — nothing in the schema writes `completed` events. -/
theorem done_transition_writes_no_completed_event :
    (eventsOfType (apiStep 9 blockedDb (GuardedOp.chgStatus 1 Status.done))
        "status_changed").length = 1 ∧
    (eventsOfType (apiStep 9 blockedDb (GuardedOp.chgStatus 1 Status.done))
        "completed").length = 0 ∧
    ¬ (eventsOfType (apiStep 9 blockedDb (GuardedOp.chgStatus 1 Status.done))
        "completed").length = 1 := by
  refine ⟨?_, ?_, ?_⟩ <;> decide

/-- Claim C4 (amended): a status `UPDATE` appends exactly one
`status_changed` Event when the status actually changes and none when it is
unchanged; no mutation ever appends an Event of type `completed` (entering
`done` sets `completed_at` instead); and two serialized
`changeStatus(item, done)` calls from `blocked` yield exactly one
`status_changed → done` Event — the second call is rejected. -/
theorem status_transition_event_discipline :
    (∀ (now : Nat) (db : Db) (i : Nat) (s : Status) (r : ItemRow),
        findRow db.backlog_items i = some r →
        (step now db (Mutation.setStatus i s)).backlog_events =
          db.backlog_events ++
            (if r.status ≠ s then
              [{ id := db.next_event_id, item_id := r.id, external_id := r.external_id,
                 event_type := "status_changed",
                 event_data := EventData.statusChange r.status s,
                 actor_type := "system", created_at := now }]
            else [])) ∧
    (∀ (now : Nat) (db : Db) (m : Mutation),
        eventsOfType (step now db m) "completed" = eventsOfType db "completed") ∧
    (∀ (now now2 : Nat) (db : Db) (i : Nat) (r : ItemRow),
        findRow db.backlog_items i = some r → r.status = Status.blocked →
        (doneStatusEvents
            (apiStep now2 (apiStep now db (GuardedOp.chgStatus i Status.done))
              (GuardedOp.chgStatus i Status.done)) i).length =
          (doneStatusEvents db i).length + 1) := by
  refine ⟨step_setStatus_events, step_no_completed_events, ?_⟩
  intro now now2 db i r hr hs
  have hid : r.id = i := findRow_id _ _ _ hr
  have h1 : apiStep now db (GuardedOp.chgStatus i Status.done) =
      step now db (Mutation.setStatus i Status.done) := by
    simp [apiStep, changeStatus, hr, hs, allowedTransition]
  have hf1 : findRow (step now db (Mutation.setStatus i Status.done)).backlog_items i =
      some (trg_set_completed_at now r.status
        (trg_backlog_updated now { r with status := Status.done })) := by
    simp only [step, hr]
    rw [findRow_updateRow_self _ (fun x => by simp) _ _, hr]
    rfl
  have h2 : apiStep now2 (step now db (Mutation.setStatus i Status.done))
      (GuardedOp.chgStatus i Status.done) =
      step now db (Mutation.setStatus i Status.done) := by
    simp [apiStep, changeStatus, hf1, allowedTransition]
  rw [h1, h2]
  have he := step_setStatus_events now db i Status.done r hr
  unfold doneStatusEvents
  rw [he, List.filter_append]
  have hne : r.status ≠ Status.done := by rw [hs]; intro hc; cases hc
  simp [hne, hid]

theorem allowedTransition_done (s : Status) : allowedTransition Status.done s = false := by
  cases s <;> rfl

theorem findRow_eq_of_nodup (items : List ItemRow)
    (hnd : (items.map (fun r => r.id)).Nodup) (i : Nat) (r r0 : ItemRow)
    (hr : findRow items i = some r) (hr0 : r0 ∈ items) (hid : r0.id = i) : r0 = r := by
  induction items with
  | nil => cases hr0
  | cons a l ih =>
      simp only [List.map_cons, List.nodup_cons] at hnd
      obtain ⟨hna, hndl⟩ := hnd
      rcases List.mem_cons.mp hr0 with h0 | h0
      · subst h0
        unfold findRow at hr
        rw [List.find?_cons_of_pos _ (by simp [hid])] at hr
        injection hr
      · by_cases ha : a.id = i
        · exfalso
          apply hna
          rw [ha, ← hid]
          exact List.mem_map_of_mem _ h0
        · unfold findRow at hr
          rw [List.find?_cons_of_neg _ (by simp [ha])] at hr
          exact ih hndl hr h0

theorem step_preserves_nodup (now : Nat) (db : Db) (m : Mutation)
    (hnd : (db.backlog_items.map (fun r => r.id)).Nodup) :
    ((step now db m).backlog_items.map (fun r => r.id)).Nodup := by
  cases m with
  | insert row =>
      simp only [step]
      split
      · exact hnd
      · rename_i hany
        rw [List.map_append]
        refine List.Nodup.append hnd (List.nodup_singleton _) ?_
        intro a ha hb
        simp only [List.map_cons, List.map_nil, List.mem_singleton] at hb
        subst hb
        obtain ⟨r0, hr0, hid0⟩ := List.mem_map.mp ha
        apply hany
        refine List.any_eq_true.mpr ⟨r0, hr0, ?_⟩
        simp [hid0]
  | setStatus i s =>
      simp only [step]
      cases h : findRow db.backlog_items i with
      | none => exact hnd
      | some r =>
          rw [updateRow_map_ids _ _ (fun x => by simp)]
          exact hnd
  | setPriority i p =>
      simp only [step]
      cases h : findRow db.backlog_items i with
      | none => exact hnd
      | some r =>
          rw [updateRow_map_ids _ _ (fun x => by simp)]
          exact hnd
  | setTitle i t =>
      simp only [step]
      cases h : findRow db.backlog_items i with
      | none => exact hnd
      | some r =>
          rw [updateRow_map_ids _ _ (fun x => by simp)]
          exact hnd
  | setDescription i d =>
      simp only [step]
      cases h : findRow db.backlog_items i with
      | none => exact hnd
      | some r =>
          rw [updateRow_map_ids _ _ (fun x => by simp)]
          exact hnd

theorem apiStep_preserves_nodup (now : Nat) (db : Db) (op : GuardedOp)
    (hnd : (db.backlog_items.map (fun r => r.id)).Nodup) :
    ((apiStep now db op).backlog_items.map (fun r => r.id)).Nodup := by
  rcases apiStep_cases now db op with h | ⟨m, h⟩
  · rw [h]; exact hnd
  · rw [h]; exact step_preserves_nodup now db m hnd

theorem step_setStatus_preserves_doneIff (now : Nat) (db : Db) (i : Nat) (s : Status)
    (r : ItemRow) (hnd : (db.backlog_items.map (fun x => x.id)).Nodup)
    (hP : ∀ x ∈ db.backlog_items, (x.status = Status.done ↔ x.completed_at ≠ none))
    (hf : findRow db.backlog_items i = some r)
    (ha : allowedTransition r.status s = true) :
    ∀ r' ∈ (step now db (Mutation.setStatus i s)).backlog_items,
      (r'.status = Status.done ↔ r'.completed_at ≠ none) := by
  intro r' hr'
  simp only [step, hf, updateRow] at hr'
  obtain ⟨r0, hr0, hgr⟩ := List.mem_map.mp hr'
  by_cases hc : r0.id = i
  · have hr0r : r0 = r := findRow_eq_of_nodup db.backlog_items hnd i r r0 hf hr0 hc
    have ha0 : allowedTransition r0.status s = true := by rw [hr0r]; exact ha
    rw [if_pos (by simp [hc])] at hgr
    subst hgr
    have hco := trg_set_completed_at_completed_at now r0.status
      (trg_backlog_updated now { r0 with status := s })
    by_cases hs : s = Status.done
    · subst hs
      by_cases hd : r0.status = Status.done
      · rw [hd, allowedTransition_done] at ha0
        cases ha0
      · simp [hco, hd]
    · have hr0d : r0.status ≠ Status.done := by
        intro hd
        rw [hd, allowedTransition_done] at ha0
        cases ha0
      have hnone : r0.completed_at = none := by
        by_cases hn : r0.completed_at = none
        · exact hn
        · exact absurd ((hP r0 hr0).mpr hn) hr0d
      rw [hco]
      simp [hs, hnone]
  · rw [if_neg (by simp [hc])] at hgr
    subst hgr
    exact hP r0 hr0

theorem apiStep_preserves_ItemInv (now : Nat) (db : Db) (op : GuardedOp)
    (hop : ∀ row, op = GuardedOp.createItem row →
      (row.status = Status.done ↔ row.completed_at ≠ none))
    (h : ItemInv db) : ItemInv (apiStep now db op) := by
  obtain ⟨hnd, hP⟩ := h
  refine ⟨apiStep_preserves_nodup now db op hnd, ?_⟩
  cases op with
  | chgStatus i s =>
      cases hf : findRow db.backlog_items i with
      | none =>
          have he : apiStep now db (GuardedOp.chgStatus i s) = db := by
            simp [apiStep, changeStatus, hf]
          rw [he]; exact hP
      | some r =>
          by_cases ha : allowedTransition r.status s = true
          · have he : apiStep now db (GuardedOp.chgStatus i s) =
                step now db (Mutation.setStatus i s) := by
              simp [apiStep, changeStatus, hf, ha]
            rw [he]
            exact step_setStatus_preserves_doneIff now db i s r hnd hP hf ha
          · have he : apiStep now db (GuardedOp.chgStatus i s) = db := by
              simp [apiStep, changeStatus, hf, ha]
            rw [he]; exact hP
  | chgPriority i p =>
      simp only [apiStep, step]
      cases hf : findRow db.backlog_items i with
      | none => exact hP
      | some r =>
          intro r' hr'
          simp only [updateRow] at hr'
          obtain ⟨r0, hr0, hgr⟩ := List.mem_map.mp hr'
          by_cases hc : r0.id = i
          · rw [if_pos (by simp [hc])] at hgr
            subst hgr
            simpa using hP r0 hr0
          · rw [if_neg (by simp [hc])] at hgr
            subst hgr
            exact hP r0 hr0
  | editTitle i t =>
      simp only [apiStep, step]
      cases hf : findRow db.backlog_items i with
      | none => exact hP
      | some r =>
          intro r' hr'
          simp only [updateRow] at hr'
          obtain ⟨r0, hr0, hgr⟩ := List.mem_map.mp hr'
          by_cases hc : r0.id = i
          · rw [if_pos (by simp [hc])] at hgr
            subst hgr
            simpa using hP r0 hr0
          · rw [if_neg (by simp [hc])] at hgr
            subst hgr
            exact hP r0 hr0
  | editDescription i d =>
      simp only [apiStep, step]
      cases hf : findRow db.backlog_items i with
      | none => exact hP
      | some r =>
          intro r' hr'
          simp only [updateRow] at hr'
          obtain ⟨r0, hr0, hgr⟩ := List.mem_map.mp hr'
          by_cases hc : r0.id = i
          · rw [if_pos (by simp [hc])] at hgr
            subst hgr
            simpa using hP r0 hr0
          · rw [if_neg (by simp [hc])] at hgr
            subst hgr
            exact hP r0 hr0
  | createItem row =>
      simp only [apiStep, step]
      split
      · exact hP
      · intro r' hr'
        rcases List.mem_append.mp hr' with h0 | h0
        · exact hP r' h0
        · rw [List.mem_singleton] at h0
          subst h0
          exact hop _ rfl
  | removeTask e =>
      cases hfe : db.backlog_items.find? (fun r => r.external_id == e) with
      | none =>
          have he : apiStep now db (GuardedOp.removeTask e) = db := by
            simp [apiStep, deleteTask, hfe]
          rw [he]; exact hP
      | some r =>
          cases hf : findRow db.backlog_items r.id with
          | none =>
              have he : apiStep now db (GuardedOp.removeTask e) = db := by
                simp [apiStep, deleteTask, changeStatus, hfe, hf]
              rw [he]; exact hP
          | some r2 =>
              by_cases ha : allowedTransition r2.status Status.cancelled = true
              · have he : apiStep now db (GuardedOp.removeTask e) =
                    step now db (Mutation.setStatus r.id Status.cancelled) := by
                  simp [apiStep, deleteTask, changeStatus, hfe, hf, ha]
                rw [he]
                exact step_setStatus_preserves_doneIff now db r.id Status.cancelled r2
                  hnd hP hf ha
              · have he : apiStep now db (GuardedOp.removeTask e) = db := by
                  simp [apiStep, deleteTask, changeStatus, hfe, hf, ha]
                rw [he]; exact hP

theorem apiRun_preserves_ItemInv (ops : List (Nat × GuardedOp)) (db : Db)
    (hops : ∀ nm ∈ ops, ∀ row, nm.2 = GuardedOp.createItem row →
      (row.status = Status.done ↔ row.completed_at ≠ none))
    (h : ItemInv db) : ItemInv (apiRun db ops) := by
  induction ops generalizing db with
  | nil => exact h
  | cons nm rest ih =>
      refine ih (apiStep nm.1 db nm.2) (fun x hx => hops x (List.mem_cons_of_mem _ hx)) ?_
      exact apiStep_preserves_ItemInv nm.1 db nm.2
        (fun row hrow => hops nm (List.mem_cons_self _ _) row hrow) h

theorem findRow_step_of_ne (now : Nat) (db : Db) (m : Mutation) (i j : Nat)
    (hm : mutationTarget m = some j) (hne : i ≠ j) :
    findRow (step now db m).backlog_items i = findRow db.backlog_items i := by
  cases m with
  | insert row => simp [mutationTarget] at hm
  | setStatus rowId s =>
      simp only [mutationTarget, Option.some.injEq] at hm
      subst hm
      simp only [step]
      cases hf : findRow db.backlog_items rowId with
      | none => rfl
      | some r2 => exact findRow_updateRow_ne _ (fun x => by simp) _ _ _ hne
  | setPriority rowId p =>
      simp only [mutationTarget, Option.some.injEq] at hm
      subst hm
      simp only [step]
      cases hf : findRow db.backlog_items rowId with
      | none => rfl
      | some r2 => exact findRow_updateRow_ne _ (fun x => by simp) _ _ _ hne
  | setTitle rowId t =>
      simp only [mutationTarget, Option.some.injEq] at hm
      subst hm
      simp only [step]
      cases hf : findRow db.backlog_items rowId with
      | none => rfl
      | some r2 => exact findRow_updateRow_ne _ (fun x => by simp) _ _ _ hne
  | setDescription rowId d =>
      simp only [mutationTarget, Option.some.injEq] at hm
      subst hm
      simp only [step]
      cases hf : findRow db.backlog_items rowId with
      | none => rfl
      | some r2 => exact findRow_updateRow_ne _ (fun x => by simp) _ _ _ hne

theorem apiStep_done_frozen (now : Nat) (db : Db) (op : GuardedOp) (i : Nat) (r : ItemRow)
    (hr : findRow db.backlog_items i = some r) (hd : r.status = Status.done) :
    ∃ r', findRow (apiStep now db op).backlog_items i = some r' ∧
      r'.status = Status.done ∧ r'.completed_at = r.completed_at := by
  cases op with
  | chgStatus j s =>
      by_cases hji : j = i
      · subst hji
        have he : apiStep now db (GuardedOp.chgStatus j s) = db := by
          simp [apiStep, changeStatus, hr, hd, allowedTransition_done]
        rw [he]; exact ⟨r, hr, hd, rfl⟩
      · cases hf : findRow db.backlog_items j with
        | none =>
            have he : apiStep now db (GuardedOp.chgStatus j s) = db := by
              simp [apiStep, changeStatus, hf]
            rw [he]; exact ⟨r, hr, hd, rfl⟩
        | some r2 =>
            by_cases ha : allowedTransition r2.status s = true
            · have he : apiStep now db (GuardedOp.chgStatus j s) =
                  step now db (Mutation.setStatus j s) := by
                simp [apiStep, changeStatus, hf, ha]
              rw [he,
                findRow_step_of_ne now db (Mutation.setStatus j s) i j rfl
                  (fun hc => hji hc.symm)]
              exact ⟨r, hr, hd, rfl⟩
            · have he : apiStep now db (GuardedOp.chgStatus j s) = db := by
                simp [apiStep, changeStatus, hf, ha]
              rw [he]; exact ⟨r, hr, hd, rfl⟩
  | chgPriority j p =>
      by_cases hji : j = i
      · subst hji
        simp only [apiStep, step]
        cases hf : findRow db.backlog_items j with
        | none => exact ⟨r, hr, hd, rfl⟩
        | some r2 =>
            rw [findRow_updateRow_self _ (fun x => by simp) _ _, hr]
            exact ⟨_, rfl, by simp [hd], by simp⟩
      · simp only [apiStep]
        rw [findRow_step_of_ne now db (Mutation.setPriority j p) i j rfl
          (fun hc => hji hc.symm)]
        exact ⟨r, hr, hd, rfl⟩
  | editTitle j t =>
      by_cases hji : j = i
      · subst hji
        simp only [apiStep, step]
        cases hf : findRow db.backlog_items j with
        | none => exact ⟨r, hr, hd, rfl⟩
        | some r2 =>
            rw [findRow_updateRow_self _ (fun x => by simp) _ _, hr]
            exact ⟨_, rfl, by simp [hd], by simp⟩
      · simp only [apiStep]
        rw [findRow_step_of_ne now db (Mutation.setTitle j t) i j rfl
          (fun hc => hji hc.symm)]
        exact ⟨r, hr, hd, rfl⟩
  | editDescription j d =>
      by_cases hji : j = i
      · subst hji
        simp only [apiStep, step]
        cases hf : findRow db.backlog_items j with
        | none => exact ⟨r, hr, hd, rfl⟩
        | some r2 =>
            rw [findRow_updateRow_self _ (fun x => by simp) _ _, hr]
            exact ⟨_, rfl, by simp [hd], by simp⟩
      · simp only [apiStep]
        rw [findRow_step_of_ne now db (Mutation.setDescription j d) i j rfl
          (fun hc => hji hc.symm)]
        exact ⟨r, hr, hd, rfl⟩
  | createItem row =>
      simp only [apiStep, step]
      split
      · exact ⟨r, hr, hd, rfl⟩
      · rw [findRow_append_of_isSome _ _ _ (by simp [hr])]
        exact ⟨r, hr, hd, rfl⟩
  | removeTask e =>
      cases hfe : db.backlog_items.find? (fun x => x.external_id == e) with
      | none =>
          have he : apiStep now db (GuardedOp.removeTask e) = db := by
            simp [apiStep, deleteTask, hfe]
          rw [he]; exact ⟨r, hr, hd, rfl⟩
      | some r2 =>
          cases hf : findRow db.backlog_items r2.id with
          | none =>
              have he : apiStep now db (GuardedOp.removeTask e) = db := by
                simp [apiStep, deleteTask, changeStatus, hfe, hf]
              rw [he]; exact ⟨r, hr, hd, rfl⟩
          | some r3 =>
              by_cases hji : r2.id = i
              · have hr3 : r3 = r := by
                  rw [hji] at hf
                  have := hf.symm.trans hr
                  exact Option.some.inj this
                have ha : allowedTransition r3.status Status.cancelled = false := by
                  rw [hr3, hd]; exact allowedTransition_done _
                have he : apiStep now db (GuardedOp.removeTask e) = db := by
                  simp [apiStep, deleteTask, changeStatus, hfe, hf, ha]
                rw [he]; exact ⟨r, hr, hd, rfl⟩
              · by_cases ha : allowedTransition r3.status Status.cancelled = true
                · have he : apiStep now db (GuardedOp.removeTask e) =
                      step now db (Mutation.setStatus r2.id Status.cancelled) := by
                    simp [apiStep, deleteTask, changeStatus, hfe, hf, ha]
                  rw [he,
                    findRow_step_of_ne now db (Mutation.setStatus r2.id Status.cancelled)
                      i r2.id rfl (fun hc => hji hc.symm)]
                  exact ⟨r, hr, hd, rfl⟩
                · have he : apiStep now db (GuardedOp.removeTask e) = db := by
                    simp [apiStep, deleteTask, changeStatus, hfe, hf, ha]
                  rw [he]; exact ⟨r, hr, hd, rfl⟩

theorem apiRun_done_frozen (ops : List (Nat × GuardedOp)) (db : Db) (i : Nat) (r : ItemRow)
    (hr : findRow db.backlog_items i = some r) (hd : r.status = Status.done) :
    ∃ r', findRow (apiRun db ops).backlog_items i = some r' ∧
      r'.status = Status.done ∧ r'.completed_at = r.completed_at := by
  induction ops generalizing db r with
  | nil => exact ⟨r, hr, hd, rfl⟩
  | cons nm rest ih =>
      obtain ⟨r1, hr1, hd1, hc1⟩ := apiStep_done_frozen nm.1 db nm.2 i r hr hd
      obtain ⟨r2, hr2, hd2, hc2⟩ := ih (apiStep nm.1 db nm.2) r1 hr1 hd1
      exact ⟨r2, hr2, hd2, by rw [hc2, hc1]⟩

/-- Witness for `status_transition_event_discipline` at a concrete blocked
item. -/
theorem status_transition_event_discipline_witness :
    (findRow blockedDb.backlog_items 1 = some blockedItem ∧
      (step 9 blockedDb (Mutation.setStatus 1 Status.done)).backlog_events =
        blockedDb.backlog_events ++
          (if blockedItem.status ≠ Status.done then
            [{ id := blockedDb.next_event_id, item_id := blockedItem.id,
               external_id := blockedItem.external_id,
               event_type := "status_changed",
               event_data := EventData.statusChange blockedItem.status Status.done,
               actor_type := "system", created_at := 9 }]
          else [])) ∧
    (blockedItem.status = Status.blocked ∧
      (doneStatusEvents
          (apiStep 11 (apiStep 9 blockedDb (GuardedOp.chgStatus 1 Status.done))
            (GuardedOp.chgStatus 1 Status.done)) 1).length =
        (doneStatusEvents blockedDb 1).length + 1) :=
  ⟨⟨by decide,
      status_transition_event_discipline.1 9 blockedDb 1 Status.done blockedItem (by decide)⟩,
    ⟨by decide,
      status_transition_event_discipline.2.2 9 11 blockedDb 1 blockedItem (by decide)
        (by decide)⟩⟩

theorem replay_append_single (r : ItemRow) (l : List EventRow) (e : EventRow) :
    replay r (l ++ [e]) = applyEvent (replay r l) e := by
  simp [replay]

theorem step_setStatus_items (now : Nat) (db : Db) (j : Nat) (s : Status)
    (oldRow : ItemRow) (hf : findRow db.backlog_items j = some oldRow) :
    (step now db (Mutation.setStatus j s)).backlog_items =
      updateRow j (fun r => trg_set_completed_at now r.status
        (trg_backlog_updated now { r with status := s })) db.backlog_items := by
  simp [step, hf]

theorem step_setPriority_items (now : Nat) (db : Db) (j : Nat) (p : Priority)
    (oldRow : ItemRow) (hf : findRow db.backlog_items j = some oldRow) :
    (step now db (Mutation.setPriority j p)).backlog_items =
      updateRow j (fun r => trg_backlog_updated now { r with priority := p })
        db.backlog_items := by
  simp [step, hf]

theorem step_setTitle_items (now : Nat) (db : Db) (j : Nat) (t : String)
    (oldRow : ItemRow) (hf : findRow db.backlog_items j = some oldRow) :
    (step now db (Mutation.setTitle j t)).backlog_items =
      updateRow j (fun r => trg_backlog_updated now { r with title := t })
        db.backlog_items := by
  simp [step, hf]

theorem step_setDescription_items (now : Nat) (db : Db) (j : Nat) (d : Option String)
    (oldRow : ItemRow) (hf : findRow db.backlog_items j = some oldRow) :
    (step now db (Mutation.setDescription j d)).backlog_items =
      updateRow j (fun r => trg_backlog_updated now { r with description := d })
        db.backlog_items := by
  simp [step, hf]

theorem step_setPriority_events (now : Nat) (db : Db) (j : Nat) (p : Priority)
    (oldRow : ItemRow) (hf : findRow db.backlog_items j = some oldRow) :
    (step now db (Mutation.setPriority j p)).backlog_events =
      db.backlog_events ++
        trg_log_priority_change now db.next_event_id oldRow { oldRow with priority := p } := by
  simp [step, hf]

theorem step_setTitle_events (now : Nat) (db : Db) (j : Nat) (t : String) :
    (step now db (Mutation.setTitle j t)).backlog_events = db.backlog_events := by
  simp only [step]
  cases hf : findRow db.backlog_items j with
  | none => rfl
  | some _ => rfl

theorem step_setDescription_events (now : Nat) (db : Db) (j : Nat) (d : Option String) :
    (step now db (Mutation.setDescription j d)).backlog_events = db.backlog_events := by
  simp only [step]
  cases hf : findRow db.backlog_items j with
  | none => rfl
  | some _ => rfl

theorem step_insert_events (now : Nat) (db : Db) (row : ItemRow) :
    (step now db (Mutation.insert row)).backlog_events = db.backlog_events := by
  simp only [step]
  split <;> rfl

theorem step_preserves_ReplayInv (now : Nat) (db : Db) (m : Mutation) (r0 : ItemRow)
    (h : ReplayInv r0 db) : ReplayInv r0 (step now db m) := by
  obtain ⟨r', hfind, hst, hpr⟩ := h
  unfold ReplayInv eventsFor at *
  cases m with
  | insert row =>
      rw [step_insert_events]
      simp only [step]
      split
      · exact ⟨r', hfind, hst, hpr⟩
      · refine ⟨r', ?_, hst, hpr⟩
        rw [findRow_append_of_isSome _ _ _ (by simp [hfind])]
        exact hfind
  | setStatus j s =>
      cases hf : findRow db.backlog_items j with
      | none =>
          have he : step now db (Mutation.setStatus j s) = db := by simp [step, hf]
          rw [he]
          exact ⟨r', hfind, hst, hpr⟩
      | some oldRow =>
          have hoid : oldRow.id = j := findRow_id _ _ _ hf
          rw [step_setStatus_events now db j s oldRow hf,
            step_setStatus_items now db j s oldRow hf, List.filter_append]
          by_cases hji : j = r0.id
          · subst hji
            have hro : oldRow = r' := Option.some.inj (hf.symm.trans hfind)
            refine ⟨_, by rw [findRow_updateRow_self _ (fun x => by simp) _ _, hf]; rfl,
              ?_, ?_⟩
            · by_cases hchg : oldRow.status = s
              · rw [if_neg (by simp [hchg])]
                simp only [List.filter_nil, List.append_nil]
                rw [hst, ← hro]
                simp [hchg]
              · rw [if_pos hchg]
                simp only [List.filter_cons, List.filter_nil, hoid, beq_self_eq_true,
                  Bool.and_self, if_true]
                rw [replay_append_single]
                simp [applyEvent]
            · by_cases hchg : oldRow.status = s
              · rw [if_neg (by simp [hchg])]
                simp only [List.filter_nil, List.append_nil]
                rw [hpr, ← hro]
                simp
              · rw [if_pos hchg]
                simp only [List.filter_cons, List.filter_nil, hoid, beq_self_eq_true,
                  Bool.and_self, if_true]
                rw [replay_append_single]
                simp only [applyEvent]
                rw [hpr, ← hro]
                simp
          · by_cases hchg : oldRow.status = s
            · rw [if_neg (by simp [hchg])]
              simp only [List.filter_nil, List.append_nil]
              refine ⟨r', ?_, hst, hpr⟩
              rw [findRow_updateRow_ne _ (fun x => by simp) _ _ _ (fun hc => hji hc.symm)]
              exact hfind
            · rw [if_pos hchg]
              have hflt : List.filter (fun e : EventRow => e.item_id == r0.id)
                  [{ id := db.next_event_id, item_id := oldRow.id,
                     external_id := oldRow.external_id,
                     event_type := "status_changed",
                     event_data := EventData.statusChange oldRow.status s,
                     actor_type := "system", created_at := now }] = [] := by
                simp [hoid, hji]
              rw [hflt]
              simp only [List.append_nil]
              refine ⟨r', ?_, hst, hpr⟩
              rw [findRow_updateRow_ne _ (fun x => by simp) _ _ _ (fun hc => hji hc.symm)]
              exact hfind
  | setPriority j p =>
      cases hf : findRow db.backlog_items j with
      | none =>
          have he : step now db (Mutation.setPriority j p) = db := by simp [step, hf]
          rw [he]
          exact ⟨r', hfind, hst, hpr⟩
      | some oldRow =>
          have hoid : oldRow.id = j := findRow_id _ _ _ hf
          rw [step_setPriority_events now db j p oldRow hf,
            step_setPriority_items now db j p oldRow hf, List.filter_append]
          by_cases hji : j = r0.id
          · subst hji
            have hro : oldRow = r' := Option.some.inj (hf.symm.trans hfind)
            refine ⟨_, by rw [findRow_updateRow_self _ (fun x => by simp) _ _, hf]; rfl,
              ?_, ?_⟩
            · by_cases hchg : oldRow.priority = p
              · have hevs : trg_log_priority_change now db.next_event_id oldRow
                    { oldRow with priority := p } = [] := by
                  unfold trg_log_priority_change
                  simp [hchg]
                rw [hevs]
                simp only [List.filter_nil, List.append_nil]
                rw [hst, ← hro]
                simp
              · have hevs : trg_log_priority_change now db.next_event_id oldRow
                    { oldRow with priority := p } =
                    [{ id := db.next_event_id, item_id := oldRow.id,
                       external_id := oldRow.external_id,
                       event_type := "priority_changed",
                       event_data := EventData.priorityChange oldRow.priority p,
                       actor_type := "system", created_at := now }] := by
                  unfold trg_log_priority_change
                  simp [hchg]
                rw [hevs]
                simp only [List.filter_cons, List.filter_nil, hoid, beq_self_eq_true,
                  Bool.and_self, if_true]
                rw [replay_append_single]
                simp only [applyEvent]
                rw [hst, ← hro]
                simp
            · by_cases hchg : oldRow.priority = p
              · have hevs : trg_log_priority_change now db.next_event_id oldRow
                    { oldRow with priority := p } = [] := by
                  unfold trg_log_priority_change
                  simp [hchg]
                rw [hevs]
                simp only [List.filter_nil, List.append_nil]
                rw [hpr, ← hro]
                simp [hchg]
              · have hevs : trg_log_priority_change now db.next_event_id oldRow
                    { oldRow with priority := p } =
                    [{ id := db.next_event_id, item_id := oldRow.id,
                       external_id := oldRow.external_id,
                       event_type := "priority_changed",
                       event_data := EventData.priorityChange oldRow.priority p,
                       actor_type := "system", created_at := now }] := by
                  unfold trg_log_priority_change
                  simp [hchg]
                rw [hevs]
                simp only [List.filter_cons, List.filter_nil, hoid, beq_self_eq_true,
                  Bool.and_self, if_true]
                rw [replay_append_single]
                simp [applyEvent]
          · have hevs : (trg_log_priority_change now db.next_event_id oldRow
                { oldRow with priority := p }).filter (fun e => e.item_id == r0.id) = [] := by
              unfold trg_log_priority_change
              split
              · simp [hoid, fun hc : j = r0.id => hji hc]
              · rfl
            rw [hevs]
            simp only [List.append_nil]
            refine ⟨r', ?_, hst, hpr⟩
            rw [findRow_updateRow_ne _ (fun x => by simp) _ _ _ (fun hc => hji hc.symm)]
            exact hfind
  | setTitle j t =>
      cases hf : findRow db.backlog_items j with
      | none =>
          have he : step now db (Mutation.setTitle j t) = db := by simp [step, hf]
          rw [he]
          exact ⟨r', hfind, hst, hpr⟩
      | some oldRow =>
          rw [step_setTitle_events, step_setTitle_items now db j t oldRow hf]
          by_cases hji : j = r0.id
          · subst hji
            have hro : oldRow = r' := Option.some.inj (hf.symm.trans hfind)
            refine ⟨_, by rw [findRow_updateRow_self _ (fun x => by simp) _ _, hf]; rfl,
              ?_, ?_⟩
            · rw [hst, ← hro]; rfl
            · rw [hpr, ← hro]; rfl
          · refine ⟨r', ?_, hst, hpr⟩
            rw [findRow_updateRow_ne _ (fun x => by simp) _ _ _ (fun hc => hji hc.symm)]
            exact hfind
  | setDescription j d =>
      cases hf : findRow db.backlog_items j with
      | none =>
          have he : step now db (Mutation.setDescription j d) = db := by simp [step, hf]
          rw [he]
          exact ⟨r', hfind, hst, hpr⟩
      | some oldRow =>
          rw [step_setDescription_events, step_setDescription_items now db j d oldRow hf]
          by_cases hji : j = r0.id
          · subst hji
            have hro : oldRow = r' := Option.some.inj (hf.symm.trans hfind)
            refine ⟨_, by rw [findRow_updateRow_self _ (fun x => by simp) _ _, hf]; rfl,
              ?_, ?_⟩
            · rw [hst, ← hro]; rfl
            · rw [hpr, ← hro]; rfl
          · refine ⟨r', ?_, hst, hpr⟩
            rw [findRow_updateRow_ne _ (fun x => by simp) _ _ _ (fun hc => hji hc.symm)]
            exact hfind

theorem run_preserves_ReplayInv (ops : List (Nat × Mutation)) (db : Db) (r0 : ItemRow)
    (h : ReplayInv r0 db) : ReplayInv r0 (run db ops) := by
  induction ops generalizing db with
  | nil => exact h
  | cons nm rest ih => exact ih _ (step_preserves_ReplayInv nm.1 db nm.2 r0 h)

/-- Claim C1 (corrected, counterexample): creating an item and updating its
title leaves the event log empty — neither `INSERT` nor a title `UPDATE`
fires a logging trigger — so replaying the stored Event sequence against an
empty materialized state cannot reproduce the current `backlog_items`. -/
theorem replay_cannot_rebuild_from_cold :
    replayFromEmpty (run { backlog_items := [], backlog_events := [], next_event_id := 0 }
        [(0, Mutation.insert sampleItem),
         (1, Mutation.setTitle 1 "Fix login bug quickly")]).backlog_events ≠
      (run { backlog_items := [], backlog_events := [], next_event_id := 0 }
        [(0, Mutation.insert sampleItem),
         (1, Mutation.setTitle 1 "Fix login bug quickly")]).backlog_items ∧
    (run { backlog_items := [], backlog_events := [], next_event_id := 0 }
        [(0, Mutation.insert sampleItem),
         (1, Mutation.setTitle 1 "Fix login bug quickly")]).backlog_events = [] := by
  constructor <;> decide

/-- Claim C1 (amended): the trigger-written Event log does determine the
`status` and `priority` columns — for an item created as row `r0`, after any
sequence of SQL mutations, replaying the item's stored Event sequence (in
log order) over the creation row reproduces the current row's `status` and
`priority`; the replay is a pure fold, hence deterministic.  Creation and
title/description updates write no Events, so the full row is not
reconstructible from the Event log alone (cold start fails). -/
theorem replay_reproduces_status_and_priority :
    ∀ (r0 : ItemRow) (k : Nat) (ops : List (Nat × Mutation)) (r' : ItemRow),
      findRow (run (singleItemDb r0 k) ops).backlog_items r0.id = some r' →
      (replay r0 (eventsFor (run (singleItemDb r0 k) ops) r0.id)).status = r'.status ∧
      (replay r0 (eventsFor (run (singleItemDb r0 k) ops) r0.id)).priority = r'.priority := by
  intro r0 k ops r' hr'
  have h0 : ReplayInv r0 (singleItemDb r0 k) := by
    refine ⟨r0, ?_, rfl, rfl⟩
    simp [singleItemDb, findRow]
  obtain ⟨r2, hfind2, hst2, hpr2⟩ := run_preserves_ReplayInv ops _ r0 h0
  rw [hr'] at hfind2
  obtain rfl := Option.some.inj hfind2
  exact ⟨hst2, hpr2⟩

/-- Witness for `replay_reproduces_status_and_priority` on a concrete run:
a status change followed by a priority change replay to the final row. -/
theorem replay_reproduces_status_and_priority_witness :
    findRow (run (singleItemDb sampleItem 0) replayOps).backlog_items sampleItem.id =
      some replayedRow ∧
    ((replay sampleItem
        (eventsFor (run (singleItemDb sampleItem 0) replayOps) sampleItem.id)).status =
      replayedRow.status ∧
     (replay sampleItem
        (eventsFor (run (singleItemDb sampleItem 0) replayOps) sampleItem.id)).priority =
      replayedRow.priority) :=
  ⟨by decide, replay_reproduces_status_and_priority sampleItem 0 replayOps replayedRow
    (by decide)⟩

/-- Claim C3 (corrected, counterexample): a row inserted directly with status
`done` is in status `done` with `completed_at` unset — `trg_set_completed_at`
is an `AFTER UPDATE` trigger and never fires on `INSERT`, while the schema
`CHECK` accepts `done` at insertion. -/
theorem done_insert_leaves_completed_at_unset :
    (findRow (step 0 { backlog_items := [], backlog_events := [], next_event_id := 0 }
        (Mutation.insert doneInsertRow)).backlog_items 1).map
      (fun r => (r.status, r.completed_at)) = some (Status.done, none) := by
  decide

/-- Claim C3 (amended): over the guarded interface — `changeStatus` enforcing
the transition table, priority changes, field edits, removal, and creation of
rows satisfying the `done ↔ completed_at set` discipline — the invariant
"a row is `done` exactly when `completed_at` is set" is preserved, so an item
is never `done` with `completed_at` unset and `completed_at` is not assigned
before the first entry into `done`; and once an item is `done`, its status
and its `completed_at` value never change again, so `completed_at` is
assigned exactly once, at the item's only transition into `done`.  A row
inserted directly with status `done`, however, starts with `completed_at`
unset. -/
theorem completed_at_set_exactly_once :
    (∀ (db : Db) (ops : List (Nat × GuardedOp)),
        ItemInv db →
        (∀ nm ∈ ops, ∀ row, nm.2 = GuardedOp.createItem row →
          (row.status = Status.done ↔ row.completed_at ≠ none)) →
        ItemInv (apiRun db ops)) ∧
    (∀ (db : Db) (ops : List (Nat × GuardedOp)) (i : Nat) (r : ItemRow),
        findRow db.backlog_items i = some r → r.status = Status.done →
        ∃ r', findRow (apiRun db ops).backlog_items i = some r' ∧
          r'.status = Status.done ∧ r'.completed_at = r.completed_at) :=
  ⟨fun db ops h hops => apiRun_preserves_ItemInv ops db hops h,
    fun db ops i r hr hd => apiRun_done_frozen ops db i r hr hd⟩

/-- Witness for `completed_at_set_exactly_once`: marking the blocked item
done preserves the invariant, and a completed item's `completed_at` survives
a reopen attempt. -/
theorem completed_at_set_exactly_once_witness :
    (ItemInv blockedDb ∧
      ItemInv (apiRun blockedDb [(9, GuardedOp.chgStatus 1 Status.done)])) ∧
    (findRow doneDb.backlog_items 1 = some doneItem ∧ doneItem.status = Status.done ∧
      ∃ r', findRow (apiRun doneDb
          [(9, GuardedOp.chgStatus 1 Status.open_)]).backlog_items 1 = some r' ∧
        r'.status = Status.done ∧ r'.completed_at = doneItem.completed_at) :=
  ⟨⟨by unfold ItemInv; decide,
      completed_at_set_exactly_once.1 blockedDb [(9, GuardedOp.chgStatus 1 Status.done)]
        (by unfold ItemInv; decide)
        (by
          intro nm hnm row h
          rw [List.mem_singleton] at hnm
          subst hnm
          exact GuardedOp.noConfusion h)⟩,
    ⟨by decide, by decide,
      completed_at_set_exactly_once.2 doneDb [(9, GuardedOp.chgStatus 1 Status.open_)] 1
        doneItem (by decide) (by decide)⟩⟩

/-- Claim C7 (corrected, counterexample): two active items tied on priority
and `created_at` come out of `v_active_by_priority` in table order, not
ordered by external id — the view's `ORDER BY` has no external-id key. -/
theorem v_active_tiebreak_ignores_external_id :
    (v_active_by_priority 10 [tieItemB, tieItemA]).map (fun v => v.external_id) =
      ["b", "a"] ∧
    tieItemB.priority = tieItemA.priority ∧
    tieItemB.created_at = tieItemA.created_at ∧
    ¬ (("b" : String).data < ("a" : String).data ∨
        ("b" : String).data = ("a" : String).data) ∧
    ¬ List.Pairwise specTieOrder (v_active_by_priority 10 [tieItemB, tieItemA]) := by
  refine ⟨?_, ?_, ?_, ?_, ?_⟩ <;> decide

/-- Claim C7 (amended): `v_active_by_priority` is a pure, deterministic
function of the snapshot; its output is exactly the items whose status is
neither `done` nor `cancelled`, ordered by the priority rank and then by
`created_at` ascending.  Ties on both keys keep table order — the external id
is not a tie-break key. -/
theorem v_active_by_priority_deterministic_order :
    ∀ (now : Nat) (items : List ItemRow),
      List.Pairwise (fun a b : ActiveViewRow =>
          priorityCase a.priority < priorityCase b.priority ∨
            (priorityCase a.priority = priorityCase b.priority ∧
              a.created_at ≤ b.created_at))
        (v_active_by_priority now items) ∧
      List.Perm ((v_active_by_priority now items).map (fun v => v.external_id))
        ((items.filter (fun r =>
            !(r.status == Status.done || r.status == Status.cancelled))).map
          (fun r => r.external_id)) ∧
      ∀ v ∈ v_active_by_priority now items,
        v.status ≠ Status.done ∧ v.status ≠ Status.cancelled := by
  intro now items
  refine ⟨?_, ?_, ?_⟩
  · unfold v_active_by_priority
    refine List.Pairwise.map _ ?_ (List.sorted_insertionSort activeOrder _)
    intro a b hab
    exact hab
  · unfold v_active_by_priority
    rw [List.map_map]
    exact (List.perm_insertionSort activeOrder _).map _
  · intro v hv
    unfold v_active_by_priority at hv
    obtain ⟨r, hrmem, hrv⟩ := List.mem_map.mp hv
    have hr2 : r ∈ items.filter (fun r =>
        !(r.status == Status.done || r.status == Status.cancelled)) :=
      (List.perm_insertionSort activeOrder _).mem_iff.mp hrmem
    have hpred := (List.mem_filter.mp hr2).2
    simp at hpred
    subst hrv
    exact ⟨hpred.1, hpred.2⟩

theorem find?_map_sessions (f : Session → Session)
    (hf : ∀ s, (f s).session_id = s.session_id) (l : List Session) (id j : String) :
    (l.map (fun s => if s.session_id == id then f s else s)).find?
        (fun s => s.session_id == j) =
      (l.find? (fun s => s.session_id == j)).map
        (fun s => if s.session_id == id then f s else s) := by
  induction l with
  | nil => rfl
  | cons a l ih =>
      have hid : (if a.session_id == id then f a else a).session_id = a.session_id := by
        by_cases h : a.session_id = id <;> simp [h, hf]
      simp only [List.map_cons]
      by_cases hj : a.session_id = j
      · rw [List.find?_cons_of_pos _ (by subst hj; by_cases h : a.session_id = id <;>
            simp [h, hf]),
          List.find?_cons_of_pos _ (by simp [hj])]
        rfl
      · rw [List.find?_cons_of_neg _ (by
            intro hc
            apply hj
            by_cases h : a.session_id = id
            · simp [h, hf] at hc
              exact h.trans hc
            · simp [h] at hc
              exact hc),
          List.find?_cons_of_neg _ (by simp [hj])]
        exact ih

theorem findSession_setSession_self (f : Session → Session)
    (hf : ∀ s, (f s).session_id = s.session_id) (sdb : SessionDb) (id : String) :
    findSession (setSession sdb id f) id = (findSession sdb id).map f := by
  show (sdb.sessions.map _).find? _ = _
  rw [find?_map_sessions f hf]
  cases h : findSession sdb id with
  | none => rw [show sdb.sessions.find? (fun s => s.session_id == id) = none from h]; rfl
  | some s =>
      have hs := List.find?_some (show sdb.sessions.find?
        (fun x => x.session_id == id) = some s from h)
      simp only [beq_iff_eq] at hs
      rw [show sdb.sessions.find? (fun s => s.session_id == id) = some s from h]
      simp [hs]

theorem findSession_setSession_ne (f : Session → Session)
    (hf : ∀ s, (f s).session_id = s.session_id) (sdb : SessionDb) (id j : String)
    (hne : j ≠ id) :
    findSession (setSession sdb id f) j = findSession sdb j := by
  show (sdb.sessions.map _).find? _ = _
  rw [find?_map_sessions f hf]
  cases h : findSession sdb j with
  | none => rw [show sdb.sessions.find? (fun s => s.session_id == j) = none from h]; rfl
  | some s =>
      have hs := List.find?_some (show sdb.sessions.find?
        (fun x => x.session_id == j) = some s from h)
      simp only [beq_iff_eq] at hs
      rw [show sdb.sessions.find? (fun s => s.session_id == j) = some s from h]
      simp [hs, hne]

theorem stateOf_setSession_ne (sdb : SessionDb) (id2 id : String) (f : Session → Session)
    (hf : ∀ s, (f s).session_id = s.session_id) (hne : id ≠ id2) :
    stateOf (setSession sdb id2 f) id = stateOf sdb id := by
  unfold stateOf
  rw [findSession_setSession_ne f hf sdb id2 id hne]

theorem findSession_append_of_isSome (ss extra : List Session) (j : String)
    (h : (ss.find? (fun s => s.session_id == j)).isSome) :
    (ss ++ extra).find? (fun s => s.session_id == j) =
      ss.find? (fun s => s.session_id == j) := by
  cases hf : ss.find? (fun s => s.session_id == j) with
  | none => rw [hf] at h; simp at h
  | some s => rw [List.find?_append, hf]; rfl

theorem sessionApply_terminal (now : Nat) (sdb : SessionDb) (op : SessionOp)
    (id : String) (st : SessionState) (hst : stateOf sdb id = some st)
    (ht : st.isTerminal = true) :
    stateOf (sessionApply now sdb op) id = some st := by
  obtain ⟨s, hfs, hsst⟩ : ∃ s, findSession sdb id = some s ∧ s.state = st := by
    unfold stateOf at hst
    cases hq : findSession sdb id with
    | none => rw [hq] at hst; cases hst
    | some s => rw [hq] at hst; exact ⟨s, rfl, Option.some.inj hst⟩
  cases op with
  | create sid pid goal agent =>
      cases hf2 : findSession sdb sid with
      | some s3 =>
          have he : sessionApply now sdb (SessionOp.create sid pid goal agent) = sdb := by
            simp [sessionApply, sessionStep, hf2]
          rw [he]; exact hst
      | none =>
          have he : sessionApply now sdb (SessionOp.create sid pid goal agent) =
              { sessions := sdb.sessions ++
                [{ session_id := sid, project_id := pid, agent_type := agent,
                   goal := goal, state := SessionState.idle, result := none,
                   error := none, created_at := now, updated_at := now }] } := by
            simp [sessionApply, sessionStep, hf2]
          rw [he]
          unfold stateOf
          show ((sdb.sessions ++ _).find? _).map _ = _
          rw [findSession_append_of_isSome _ _ _ (by
            rw [show sdb.sessions.find? (fun x => x.session_id == id) = some s from hfs]
            rfl)]
          exact hst
  | start id2 =>
      cases hf2 : findSession sdb id2 with
      | none =>
          have he : sessionApply now sdb (SessionOp.start id2) = sdb := by
            simp [sessionApply, sessionStep, hf2]
          rw [he]; exact hst
      | some s2 =>
          by_cases hc : s2.state = SessionState.idle
          · have he : sessionApply now sdb (SessionOp.start id2) =
                setSession sdb id2 (fun s' =>
                  { s' with state := SessionState.working, updated_at := now }) := by
              simp [sessionApply, sessionStep, hf2, hc]
            rw [he]
            by_cases hji : id2 = id
            · subst hji
              have hs2 : s2 = s := Option.some.inj (hf2.symm.trans hfs)
              rw [hs2, hsst] at hc
              rw [hc] at ht
              cases ht
            · rw [stateOf_setSession_ne sdb id2 id _ (by intro x; rfl)
                (fun hcc => hji hcc.symm)]
              exact hst
          · have he : sessionApply now sdb (SessionOp.start id2) = sdb := by
              simp [sessionApply, sessionStep, hf2, hc]
            rw [he]; exact hst
  | requestApproval id2 reason =>
      cases hf2 : findSession sdb id2 with
      | none =>
          have he : sessionApply now sdb (SessionOp.requestApproval id2 reason) = sdb := by
            simp [sessionApply, sessionStep, hf2]
          rw [he]; exact hst
      | some s2 =>
          by_cases hc : s2.state = SessionState.working
          · have he : sessionApply now sdb (SessionOp.requestApproval id2 reason) =
                setSession sdb id2 (fun s' =>
                  { s' with state := SessionState.waiting_for_approval, updated_at := now }) := by
              simp [sessionApply, sessionStep, hf2, hc]
            rw [he]
            by_cases hji : id2 = id
            · subst hji
              have hs2 : s2 = s := Option.some.inj (hf2.symm.trans hfs)
              rw [hs2, hsst] at hc
              rw [hc] at ht
              cases ht
            · rw [stateOf_setSession_ne sdb id2 id _ (by intro x; rfl)
                (fun hcc => hji hcc.symm)]
              exact hst
          · have he : sessionApply now sdb (SessionOp.requestApproval id2 reason) = sdb := by
              simp [sessionApply, sessionStep, hf2, hc]
            rw [he]; exact hst
  | resolveApproval id2 approved reason =>
      cases hf2 : findSession sdb id2 with
      | none =>
          have he : sessionApply now sdb (SessionOp.resolveApproval id2 approved reason) =
              sdb := by
            simp [sessionApply, sessionStep, hf2]
          rw [he]; exact hst
      | some s2 =>
          by_cases hc : s2.state = SessionState.waiting_for_approval
          · by_cases hji : id2 = id
            · subst hji
              have hs2 : s2 = s := Option.some.inj (hf2.symm.trans hfs)
              rw [hs2, hsst] at hc
              rw [hc] at ht
              cases ht
            · cases approved with
              | true =>
                  have he : sessionApply now sdb
                      (SessionOp.resolveApproval id2 true reason) =
                      setSession sdb id2 (fun s' =>
                        { s' with state := SessionState.working, updated_at := now }) := by
                    simp [sessionApply, sessionStep, hf2, hc]
                  rw [he]
                  rw [stateOf_setSession_ne sdb id2 id _ (by intro x; rfl)
                    (fun hcc => hji hcc.symm)]
                  exact hst
              | false =>
                  have he : sessionApply now sdb
                      (SessionOp.resolveApproval id2 false reason) =
                      setSession sdb id2 (fun s' =>
                        { s' with state := SessionState.failed, error := reason, updated_at := now }) := by
                    simp [sessionApply, sessionStep, hf2, hc]
                  rw [he]
                  rw [stateOf_setSession_ne sdb id2 id _ (by intro x; rfl)
                    (fun hcc => hji hcc.symm)]
                  exact hst
          · have he : sessionApply now sdb
                (SessionOp.resolveApproval id2 approved reason) = sdb := by
              simp [sessionApply, sessionStep, hf2, hc]
            rw [he]; exact hst
  | pause id2 =>
      cases hf2 : findSession sdb id2 with
      | none =>
          have he : sessionApply now sdb (SessionOp.pause id2) = sdb := by
            simp [sessionApply, sessionStep, hf2]
          rw [he]; exact hst
      | some s2 =>
          by_cases hc : s2.state = SessionState.working
          · have he : sessionApply now sdb (SessionOp.pause id2) =
                setSession sdb id2 (fun s' =>
                  { s' with state := SessionState.paused, updated_at := now }) := by
              simp [sessionApply, sessionStep, hf2, hc]
            rw [he]
            by_cases hji : id2 = id
            · subst hji
              have hs2 : s2 = s := Option.some.inj (hf2.symm.trans hfs)
              rw [hs2, hsst] at hc
              rw [hc] at ht
              cases ht
            · rw [stateOf_setSession_ne sdb id2 id _ (by intro x; rfl)
                (fun hcc => hji hcc.symm)]
              exact hst
          · have he : sessionApply now sdb (SessionOp.pause id2) = sdb := by
              simp [sessionApply, sessionStep, hf2, hc]
            rw [he]; exact hst
  | resume id2 =>
      cases hf2 : findSession sdb id2 with
      | none =>
          have he : sessionApply now sdb (SessionOp.resume id2) = sdb := by
            simp [sessionApply, sessionStep, hf2]
          rw [he]; exact hst
      | some s2 =>
          by_cases hc : s2.state = SessionState.paused
          · have he : sessionApply now sdb (SessionOp.resume id2) =
                setSession sdb id2 (fun s' =>
                  { s' with state := SessionState.working, updated_at := now }) := by
              simp [sessionApply, sessionStep, hf2, hc]
            rw [he]
            by_cases hji : id2 = id
            · subst hji
              have hs2 : s2 = s := Option.some.inj (hf2.symm.trans hfs)
              rw [hs2, hsst] at hc
              rw [hc] at ht
              cases ht
            · rw [stateOf_setSession_ne sdb id2 id _ (by intro x; rfl)
                (fun hcc => hji hcc.symm)]
              exact hst
          · have he : sessionApply now sdb (SessionOp.resume id2) = sdb := by
              simp [sessionApply, sessionStep, hf2, hc]
            rw [he]; exact hst
  | complete id2 result =>
      cases hf2 : findSession sdb id2 with
      | none =>
          have he : sessionApply now sdb (SessionOp.complete id2 result) = sdb := by
            simp [sessionApply, sessionStep, hf2]
          rw [he]; exact hst
      | some s2 =>
          by_cases hc : s2.state.isTerminal = true
          · have he : sessionApply now sdb (SessionOp.complete id2 result) = sdb := by
              simp [sessionApply, sessionStep, hf2, hc]
            rw [he]; exact hst
          · have he : sessionApply now sdb (SessionOp.complete id2 result) =
                setSession sdb id2 (fun s' =>
                  { s' with state := SessionState.completed, result := result, updated_at := now }) := by
              simp [sessionApply, sessionStep, hf2, hc]
            rw [he]
            by_cases hji : id2 = id
            · subst hji
              have hs2 : s2 = s := Option.some.inj (hf2.symm.trans hfs)
              rw [hs2, hsst] at hc
              exact absurd ht hc
            · rw [stateOf_setSession_ne sdb id2 id _ (by intro x; rfl)
                (fun hcc => hji hcc.symm)]
              exact hst
  | fail id2 err =>
      cases hf2 : findSession sdb id2 with
      | none =>
          have he : sessionApply now sdb (SessionOp.fail id2 err) = sdb := by
            simp [sessionApply, sessionStep, hf2]
          rw [he]; exact hst
      | some s2 =>
          by_cases hc : s2.state.isTerminal = true
          · have he : sessionApply now sdb (SessionOp.fail id2 err) = sdb := by
              simp [sessionApply, sessionStep, hf2, hc]
            rw [he]; exact hst
          · have he : sessionApply now sdb (SessionOp.fail id2 err) =
                setSession sdb id2 (fun s' =>
                  { s' with state := SessionState.failed, error := err, updated_at := now }) := by
              simp [sessionApply, sessionStep, hf2, hc]
            rw [he]
            by_cases hji : id2 = id
            · subst hji
              have hs2 : s2 = s := Option.some.inj (hf2.symm.trans hfs)
              rw [hs2, hsst] at hc
              exact absurd ht hc
            · rw [stateOf_setSession_ne sdb id2 id _ (by intro x; rfl)
                (fun hcc => hji hcc.symm)]
              exact hst

theorem sessionRun_terminal (ops : List (Nat × SessionOp)) (sdb : SessionDb)
    (id : String) (st : SessionState) (hst : stateOf sdb id = some st)
    (ht : st.isTerminal = true) :
    stateOf (sessionRun sdb ops) id = some st := by
  induction ops generalizing sdb with
  | nil => exact hst
  | cons nm rest ih =>
      exact ih (sessionApply nm.1 sdb nm.2)
        (sessionApply_terminal nm.1 sdb nm.2 id st hst ht)

/-- Claim C8 (confirmed, spec-modelled): denying an approval from
`waiting_for_approval` moves the session to `failed`; `failed` (like
`completed`) is terminal — no sequence of further commands changes the
session's state — and in particular a subsequent `pause` fails with
`InvalidTransition`, leaving the session unchanged. -/
theorem resolveApproval_denied_failed_terminal :
    (∀ (now : Nat) (sdb : SessionDb) (id : String) (reason : Option String) (s : Session),
        findSession sdb id = some s → s.state = SessionState.waiting_for_approval →
        ∃ sdb', sessionStep now sdb (SessionOp.resolveApproval id false reason) =
            Except.ok sdb' ∧
          stateOf sdb' id = some SessionState.failed ∧
          (∀ now2, sessionStep now2 sdb' (SessionOp.pause id) =
            Except.error ApiError.InvalidTransition) ∧
          (∀ ops, stateOf (sessionRun sdb' ops) id = some SessionState.failed)) ∧
    (∀ (sdb : SessionDb) (id : String) (st : SessionState),
        stateOf sdb id = some st → st.isTerminal = true →
        ∀ ops, stateOf (sessionRun sdb ops) id = some st) := by
  constructor
  · intro now sdb id reason s hfs hstate
    have hf' : findSession (setSession sdb id (fun s' =>
        { s' with state := SessionState.failed, error := reason, updated_at := now })) id =
        some { s with state := SessionState.failed, error := reason, updated_at := now } := by
      rw [findSession_setSession_self _ (by intro x; rfl), hfs]
      rfl
    have hso : stateOf (setSession sdb id (fun s' =>
        { s' with state := SessionState.failed, error := reason, updated_at := now })) id =
        some SessionState.failed := by
      unfold stateOf
      rw [hf']
      rfl
    refine ⟨setSession sdb id (fun s' =>
        { s' with state := SessionState.failed, error := reason, updated_at := now }),
      ?_, hso, ?_, ?_⟩
    · simp [sessionStep, hfs, hstate]
    · intro now2
      simp [sessionStep, hf']
    · intro ops
      exact sessionRun_terminal ops _ id SessionState.failed hso rfl
  · intro sdb id st h ht ops
    exact sessionRun_terminal ops sdb id st h ht

/-- Witness for `resolveApproval_denied_failed_terminal` on the spec's
scenario: `create("s1","proj-x","Refactor auth")`, `start`,
`requestApproval`, then a denial. -/
theorem resolveApproval_denied_failed_terminal_witness :
    (findSession sessionScenario "s1" = some scenarioSession ∧
      scenarioSession.state = SessionState.waiting_for_approval) ∧
    ∃ sdb', sessionStep 3 sessionScenario
        (SessionOp.resolveApproval "s1" false (some "not now")) = Except.ok sdb' ∧
      stateOf sdb' "s1" = some SessionState.failed ∧
      (∀ now2, sessionStep now2 sdb' (SessionOp.pause "s1") =
        Except.error ApiError.InvalidTransition) ∧
      (∀ ops, stateOf (sessionRun sdb' ops) "s1" = some SessionState.failed) :=
  ⟨⟨by decide, by decide⟩,
    resolveApproval_denied_failed_terminal.1 3 sessionScenario "s1" (some "not now")
      scenarioSession (by decide) (by decide)⟩

/-- Witness for `v_active_by_priority_deterministic_order`: the first view
row of the concrete two-item snapshot is an active item. -/
theorem v_active_by_priority_deterministic_order_witness :
    ∃ v, v ∈ v_active_by_priority 10 [tieItemB, tieItemA] ∧
      v.status ≠ Status.done ∧ v.status ≠ Status.cancelled :=
  ⟨{ external_id := "b", title := "first created", category := "Personal",
     priority := Priority.P1, status := Status.open_, next_action := none,
     created_at := 5, days_old := 5 },
    by decide,
    (v_active_by_priority_deterministic_order 10 [tieItemB, tieItemA]).2.2 _ (by decide)⟩

/-- Claim C6 (confirmed, spec-modelled): answering an already-answered
clarification returns the prior answer and is a complete no-op — the state,
including the Event log, is returned unchanged, so no second
`clarification_answered` Event appears; and answering the last open
clarification of an item transitions the item back to its pre-clarification
status (default `open`) while preserving the number of item rows — no
duplicate item is created. -/
theorem answer_idempotent_and_restores_status :
    (∀ (now : Nat) (s : ClarDb) (clarId : Nat) (text : String) (c : ClarRow)
        (prior : String),
        s.clarifications.find? (fun x => x.id == clarId) = some c →
        c.answer = some prior →
        answer now s clarId text = Except.ok (prior, s)) ∧
    (∀ (now : Nat) (s : ClarDb) (clarId : Nat) (text : String) (c : ClarRow)
        (r : ItemRow),
        s.clarifications.find? (fun x => x.id == clarId) = some c →
        c.answer = none →
        findRow s.db.backlog_items c.item_id = some r →
        (∀ c' ∈ s.clarifications, c'.item_id = c.item_id →
          c'.id = c.id ∨ c'.answer ≠ none) →
        ∃ s', answer now s clarId text = Except.ok (text, s') ∧
          (findRow s'.db.backlog_items c.item_id).map (fun x => x.status) =
            some (priorStatusOf s c.item_id) ∧
          s'.db.backlog_items.length = s.db.backlog_items.length) := by
  constructor
  · intro now s clarId text c prior hfind hans
    simp [answer, hfind, hans]
  · intro now s clarId text c r hfind hans hrow hothers
    have hopen : (s.clarifications.map (fun c' =>
        if c'.id == c.id then { c' with answer := some text, answered_at := some now }
        else c')).any (fun c' => c'.item_id == c.item_id && c'.answer == none) = false := by
      rw [List.any_map, List.any_eq_false]
      intro x hx
      simp only [Function.comp]
      by_cases hcc : x.id = c.id
      · simp [hcc]
      · rw [if_neg (by simp [hcc])]
        intro hcon
        simp only [Bool.and_eq_true, beq_iff_eq] at hcon
        rcases hothers x hx hcon.1 with h1 | h1
        · exact absurd h1 hcc
        · exact h1 (by simpa using hcon.2)
    have he : answer now s clarId text = Except.ok (text, answerFresh now s c text) := by
      simp [answer, hfind, hans]
    have hdbitems : (answerFresh now s c text).db.backlog_items =
        updateRow c.item_id (fun x => trg_set_completed_at now x.status
          (trg_backlog_updated now { x with status := priorStatusOf s c.item_id }))
          s.db.backlog_items := by
      unfold answerFresh
      rw [if_neg (by rw [hopen]; exact Bool.false_ne_true)]
      exact step_setStatus_items now _ c.item_id (priorStatusOf s c.item_id) r hrow
    refine ⟨answerFresh now s c text, he, ?_, ?_⟩
    · rw [hdbitems, findRow_updateRow_self _ (fun x => by simp) _ _, hrow]
      simp
    · rw [hdbitems]
      simp [updateRow]

/-- Witness for `answer_idempotent_and_restores_status`: answering the
asked clarification restores the item to `open`, and answering again
returns the prior answer with the state untouched. -/
theorem answer_idempotent_and_restores_status_witness :
    ((clarDbW2.clarifications.find? (fun x => x.id == 0) = some answeredClar ∧
        answeredClar.answer = some "production") ∧
      answer 5 clarDbW2 0 "again" = Except.ok ("production", clarDbW2)) ∧
    ((clarDbW.clarifications.find? (fun x => x.id == 0) = some askedClar ∧
        askedClar.answer = none ∧
        findRow clarDbW.db.backlog_items askedClar.item_id = some clarItemRow) ∧
      ∃ s', answer 2 clarDbW 0 "production" = Except.ok ("production", s') ∧
        (findRow s'.db.backlog_items askedClar.item_id).map (fun x => x.status) =
          some (priorStatusOf clarDbW askedClar.item_id) ∧
        s'.db.backlog_items.length = clarDbW.db.backlog_items.length) :=
  ⟨⟨⟨by decide, rfl⟩,
      answer_idempotent_and_restores_status.1 5 clarDbW2 0 "again" answeredClar
        "production" (by decide) rfl⟩,
    ⟨⟨by decide, rfl, by decide⟩,
      answer_idempotent_and_restores_status.2 2 clarDbW 0 "production" askedClar
        clarItemRow (by decide) rfl (by decide) (by decide)⟩⟩

end LocalAIStack
